import Mathlib

/-
Verification of the task-orchestration engine of the ai-automation
repository (queue service: src/queue/src/gemini-service.ts and
src/queue/src/database.ts), as a shallow embedding in Lean 4.

Modelling conventions:
- JavaScript values that flow into nullable columns are modelled by the
  inductive type JVal, with JS truthiness (empty string and zero are
  falsy; arrays and objects are always truthy).
- JSON.stringify is modelled by a concrete total encoding serializeJVal;
  the code path that receives a string stores the string as given (the
  source validates it parses as JSON but stores the same string either
  way), so serializeJVal on a string value is the identity.
- SQL tables are lists of row structures; the upsert of createAttempt
  (INSERT ... ON CONFLICT (task_id, attempt_number) DO UPDATE SET) and
  the dynamic UPDATE of updateTaskStatus are modelled as list.
  transformations mirroring the SQL the source builds.
- Asynchronous database calls that may reject are driven by explicit
  error oracles (Option String fields: none means the write succeeds,
  some e means the call throws e).
- Timestamps (CURRENT_TIMESTAMP) are modelled by a Nat clock parameter.
-/

namespace AIAutomation

/-- Execution result returned by executeCode: the worker response has
success, an optional error text, a screenshot list and an execution
time (the error branches of executeCode construct exactly this shape
with success false and execution_time 0). Log lines are not consumed by
the orchestrator and are omitted. -/
structure ExecResult where
  success : Bool
  error : Option String := none
  screenshots : List String := []
  execution_time : Nat := 0
deriving DecidableEq, Repr

/-- JavaScript values flowing into the nullable columns: strings,
numbers, string arrays (screenshot lists), the worker execution-result
object, and the chat-interaction payload written by the chat endpoint. -/
inductive JVal where
  | jstr (s : String)
  | jnum (n : Nat)
  | jarr (a : List String)
  | jexec (r : ExecResult)
  | jchat (response : String)
deriving DecidableEq, Repr

/-- JS truthiness: the empty string and zero are falsy; arrays and
objects are always truthy. -/
def JVal.truthy : JVal → Bool
  | .jstr s => !(s == "")
  | .jnum n => !(n == 0)
  | .jarr _ => true
  | .jexec _ => true
  | .jchat _ => true

/-- Encoding of a string list, standing for JSON.stringify of an array. -/
def serializeStrArr (a : List String) : String :=
  "[" ++ String.intercalate "," a ++ "]"

/-- Serialization applied before storing a value in a text column:
strings are stored as given (the source parses them only to validate),
other values stand for their JSON.stringify image under a fixed
encoding. -/
def serializeJVal : JVal → String
  | .jstr s => s
  | .jnum n => toString n
  | .jarr a => serializeStrArr a
  | .jexec r =>
      "(success=" ++ (if r.success then "true" else "false")
        ++ ",error=" ++ (match r.error with | some e => e | none => "null")
        ++ ",screenshots=" ++ serializeStrArr r.screenshots
        ++ ",execution_time=" ++ toString r.execution_time ++ ")"
  | .jchat response => "(chatResponse=" ++ response ++ ")"

/-- JS expression s || d for an optional string s: undefined, null and
the empty string all fall through to the default. -/
def jsOr (s : Option String) (d : String) : String :=
  match s with
  | some v => if v = "" then d else v
  | none => d

/-- Row of the automation_attempts table, with the columns written by
DatabaseManager.createAttempt. -/
structure AttemptRow where
  task_id : String
  attempt_number : Nat
  status : String
  generated_code : Option String
  execution_result : Option String
  error_message : Option String
  screenshots : Option String
  execution_time_ms : Option Nat
deriving DecidableEq, Repr

/-- Argument record of DatabaseManager.createAttempt; optional fields
absent at a call site are undefined (none). -/
structure AttemptData where
  taskId : String
  attemptNumber : Nat
  status : String
  generatedCode : Option String := none
  executionResult : Option JVal := none
  errorMessage : Option String := none
  screenshots : Option JVal := none
  executionTime : Option Nat := none
deriving DecidableEq, Repr

/-- Truthiness of an optional JS value (undefined is falsy). -/
def jvalTruthy : Option JVal → Bool
  | none => false
  | some v => v.truthy

/-- Column value stored for a JSON-serialized field of createAttempt:
null unless the supplied value is truthy. -/
def serializeField (v : Option JVal) : Option String :=
  match v with
  | some j => if j.truthy then some (serializeJVal j) else none
  | none => none

/-- Column value stored for execution_time_ms: the source stores
Math.round(executionTime * 1000) when executionTime is truthy and null
otherwise (so zero gives null). Times are modelled as integral seconds. -/
def executionTimeMsField (t : Option Nat) : Option Nat :=
  match t with
  | some v => if v = 0 then none else some (v * 1000)
  | none => none

/-- Row built from the VALUES of the createAttempt INSERT. -/
def mkAttemptRow (d : AttemptData) : AttemptRow :=
  { task_id := d.taskId
    attempt_number := d.attemptNumber
    status := d.status
    generated_code := d.generatedCode
    execution_result := serializeField d.executionResult
    error_message := d.errorMessage
    screenshots := serializeField d.screenshots
    execution_time_ms := executionTimeMsField d.executionTime }

/-- Key test for the unique constraint (task_id, attempt_number). -/
def sameKey (r : AttemptRow) (d : AttemptData) : Bool :=
  r.task_id == d.taskId && r.attempt_number == d.attemptNumber

/-- DatabaseManager.createAttempt, as a transformation of the
automation_attempts table: INSERT ... ON CONFLICT (task_id,
attempt_number) DO UPDATE SET overwrites every listed column of the
conflicting row, otherwise a new row is appended. -/
def createAttemptSQL (tbl : List AttemptRow) (d : AttemptData) : List AttemptRow :=
  if tbl.any (fun r => sameKey r d) then
    tbl.map (fun r => if sameKey r d then mkAttemptRow d else r)
  else
    tbl ++ [mkAttemptRow d]

/-- Row of the automation_tasks table: the columns read or written by
the queue service (createTask, updateTaskStatus). -/
structure TaskRow where
  task_id : String
  prompt : String
  website_url : String
  status : String
  generated_code : Option String
  execution_result : Option String
  error_message : Option String
  screenshots : Option String
  execution_time_ms : Option Nat
  attempt_count : Option Nat
  max_attempts : Nat
  created_at : Nat
  updated_at : Nat
  completed_at : Option Nat
deriving DecidableEq, Repr

/-- Data argument of DatabaseManager.updateTaskStatus. The callers in
gemini-service.ts pass at most the keys generatedCode, executionResult,
errorMessage, screenshots, executionTime, attemptCount, lastCode and
chatEnabled; updateTaskStatus itself reads only the first six of these
(lastCode and chatEnabled have no corresponding branch and are
silently dropped). -/
structure UpdateData where
  generatedCode : Option String := none
  executionResult : Option JVal := none
  errorMessage : Option String := none
  screenshots : Option JVal := none
  executionTime : Option Nat := none
  attemptCount : Option Nat := none
  lastCode : Option String := none
  chatEnabled : Option Bool := none
deriving DecidableEq, Repr

/-- One column assignment of the dynamically built UPDATE statement. -/
inductive ColUpdate where
  | statusCol (v : String)
  | updatedAt
  | generatedCode (v : String)
  | executionResult (v : String)
  | errorMessage (v : String)
  | screenshots (v : String)
  | executionTimeMs (v : Nat)
  | attemptCount (v : Nat)
  | completedAt
deriving DecidableEq, Repr

/-- Truthiness of an optional string (undefined and the empty string
are falsy). -/
def strTruthy : Option String → Bool
  | none => false
  | some s => !(s == "")

/-- Updates contributed by the truthiness branch on data.generatedCode. -/
def updGenCodeSeg (gc : Option String) : List ColUpdate :=
  match gc with
  | some s => if s = "" then [] else [ColUpdate.generatedCode s]
  | none => []

/-- Updates contributed by the truthiness branch on data.executionResult. -/
def updExecResultSeg (er : Option JVal) : List ColUpdate :=
  match er with
  | some v => if v.truthy then [ColUpdate.executionResult (serializeJVal v)] else []
  | none => []

/-- Updates contributed by the truthiness branch on data.errorMessage. -/
def updErrMsgSeg (em : Option String) : List ColUpdate :=
  match em with
  | some s => if s = "" then [] else [ColUpdate.errorMessage s]
  | none => []

/-- Updates contributed by the truthiness branch on data.screenshots. -/
def updShotsSeg (sc : Option JVal) : List ColUpdate :=
  match sc with
  | some v => if v.truthy then [ColUpdate.screenshots (serializeJVal v)] else []
  | none => []

/-- Updates contributed by the truthiness branch on data.executionTime
(the stored value is Math.round(executionTime * 1000)). -/
def updExecTimeSeg (et : Option Nat) : List ColUpdate :=
  match et with
  | some t => if t = 0 then [] else [ColUpdate.executionTimeMs (t * 1000)]
  | none => []

/-- Updates contributed by the definedness branch on data.attemptCount. -/
def updAttemptCountSeg (ac : Option Nat) : List ColUpdate :=
  match ac with
  | some n => [ColUpdate.attemptCount n]
  | none => []

/-- Update contributed by the branch on status = completed. -/
def updCompletedAtSeg (status : String) : List ColUpdate :=
  if status = "completed" then [ColUpdate.completedAt] else []

/-- The updates list built by updateTaskStatus, in source order:
status and updated_at always; generated_code, execution_result,
error_message and screenshots only when the supplied value is truthy;
execution_time_ms only when executionTime is truthy (nonzero);
attempt_count whenever attemptCount is not undefined; completed_at
exactly when the new status is completed. The keys lastCode and
chatEnabled of the data argument have no branch here. -/
def buildUpdates (status : String) (d : UpdateData) : List ColUpdate :=
  [ColUpdate.statusCol status, ColUpdate.updatedAt]
    ++ updGenCodeSeg d.generatedCode
    ++ updExecResultSeg d.executionResult
    ++ updErrMsgSeg d.errorMessage
    ++ updShotsSeg d.screenshots
    ++ updExecTimeSeg d.executionTime
    ++ updAttemptCountSeg d.attemptCount
    ++ updCompletedAtSeg status

/-- Application of one column assignment to a task row; now is the
value of CURRENT_TIMESTAMP. -/
def applyColUpdate (now : Nat) (row : TaskRow) : ColUpdate → TaskRow
  | .statusCol v => { row with status := v }
  | .updatedAt => { row with updated_at := now }
  | .generatedCode v => { row with generated_code := some v }
  | .executionResult v => { row with execution_result := some v }
  | .errorMessage v => { row with error_message := some v }
  | .screenshots v => { row with screenshots := some v }
  | .executionTimeMs v => { row with execution_time_ms := some v }
  | .attemptCount v => { row with attempt_count := some v }
  | .completedAt => { row with completed_at := some now }

/-- DatabaseManager.updateTaskStatus applied to the row of the given
task: the UPDATE sets exactly the columns of the built updates list. -/
def updateTaskStatusSQL (row : TaskRow) (status : String) (d : UpdateData)
    (now : Nat) : TaskRow :=
  (buildUpdates status d).foldl (applyColUpdate now) row

/-- Observable effect of the orchestration run: database writes (as the
call arguments), code-generation and execution calls, and backoff
delays, in program order. A throwing database call emits no event. -/
inductive Event where
  | createAttemptEv (d : AttemptData)
  | updateTaskEv (status : String) (d : UpdateData)
  | genCall (prompt : String) (url : Option String) (model : String)
  | execCall (code : String) (url : Option String)
  | delay (ms : Nat)
deriving DecidableEq, Repr

/-- Fold of the createAttempt events of a trace into the
automation_attempts table. -/
def applyAttemptEvents (tbl : List AttemptRow) (evs : List Event) : List AttemptRow :=
  evs.foldl (fun t e =>
    match e with
    | .createAttemptEv d => createAttemptSQL t d
    | _ => t) tbl

/-- Fold of the updateTaskStatus events of a trace into the task row
(the slice of automation_tasks selected by WHERE task_id). The clock is
held at zero since no claim inspects timestamps written during a run. -/
def applyTaskEvents (row : TaskRow) (evs : List Event) : TaskRow :=
  evs.foldl (fun r e =>
    match e with
    | .updateTaskEv status d => updateTaskStatusSQL r status d 0
    | _ => r) row

instance {α β : Type} [DecidableEq α] [DecidableEq β] :
    DecidableEq (Except α β) := fun a b =>
  match a, b with
  | .ok x, .ok y =>
      if h : x = y then isTrue (by rw [h]) else isFalse (by simp [h])
  | .error x, .error y =>
      if h : x = y then isTrue (by rw [h]) else isFalse (by simp [h])
  | .ok _, .error _ => isFalse (by simp)
  | .error _, .ok _ => isFalse (by simp)

/-- Environment of one iteration of the retry loop of
processAutomationJob: the generation outcome (generateSeleniumCode
either returns code or throws), the execution outcome (executeCode
never rejects: its catch converts failures into a result object with
success false), and error oracles for the five database calls the
iteration can make. -/
structure AttemptEnv where
  gen : Except String String
  exec : ExecResult
  createProcessingErr : Option String := none
  createExecutingErr : Option String := none
  createFinalErr : Option String := none
  updateCompletedErr : Option String := none
  createCatchErr : Option String := none
deriving DecidableEq, Repr

/-- Outcome of one iteration: success returns from the whole job;
failure carries the value of lastError and the update to lastCode
(some code when generation succeeded in this iteration) and continues
the loop; aborted means an exception escaped the per-attempt catch
(its createAttempt call threw) and propagates to the outer handler. -/
inductive AttemptOutcome where
  | success (code : String) (r : ExecResult)
  | failure (err : String) (lastCodeUpd : Option String)
  | aborted (err : String)
deriving DecidableEq, Repr

/-- Backoff delay inserted before the next attempt. -/
def backoff (attempt : Nat) : Nat :=
  min (1000 * 2 ^ (attempt - 1)) 10000

/-- The catch block of one loop iteration: store the failed attempt
(createAttempt with status failed and the error message); if that
write itself throws, the exception propagates (aborted); otherwise
delay when more attempts remain and continue. -/
def catchBlock (env : AttemptEnv) (taskId : String) (attempt maxAttempts : Nat)
    (e : String) (evs : List Event) (lastCodeUpd : Option String) :
    List Event × AttemptOutcome :=
  match env.createCatchErr with
  | some e2 => (evs, .aborted e2)
  | none =>
      let evs := evs ++ [Event.createAttemptEv
        { taskId := taskId, attemptNumber := attempt, status := "failed"
          errorMessage := some e }]
      let evs := if attempt < maxAttempts then evs ++ [Event.delay (backoff attempt)] else evs
      (evs, .failure e lastCodeUpd)

/-- One iteration of the for loop of processAutomationJob (attempt
record with status processing; generateSeleniumCode; attempt record
with status executing and the code; executeCode; attempt record with
the final status and the execution details; on success the task-status
update to completed and return, otherwise lastError and backoff). Any
throw inside the try lands in catchBlock. -/
def attemptStep (env : AttemptEnv) (taskId prompt : String) (url : Option String) (model : String)
    (attempt maxAttempts : Nat) : List Event × AttemptOutcome :=
  match env.createProcessingErr with
  | some e => catchBlock env taskId attempt maxAttempts e [] none
  | none =>
    let evs : List Event :=
      [Event.createAttemptEv { taskId := taskId, attemptNumber := attempt, status := "processing" },
       Event.genCall prompt url model]
    match env.gen with
    | .error e => catchBlock env taskId attempt maxAttempts e evs none
    | .ok code =>
      match env.createExecutingErr with
      | some e => catchBlock env taskId attempt maxAttempts e evs (some code)
      | none =>
        let evs := evs ++
          [Event.createAttemptEv
            { taskId := taskId, attemptNumber := attempt, status := "executing"
              generatedCode := some code },
           Event.execCall code url]
        let r := env.exec
        match env.createFinalErr with
        | some e => catchBlock env taskId attempt maxAttempts e evs (some code)
        | none =>
          let evs := evs ++
            [Event.createAttemptEv
              { taskId := taskId, attemptNumber := attempt
                status := if r.success then "completed" else "failed"
                generatedCode := some code
                executionResult := some (.jexec r)
                errorMessage := r.error
                screenshots := some (.jarr r.screenshots)
                executionTime := some r.execution_time }]
          if r.success then
            match env.updateCompletedErr with
            | some e => catchBlock env taskId attempt maxAttempts e evs (some code)
            | none =>
              (evs ++
                [Event.updateTaskEv "completed"
                  { generatedCode := some code
                    executionResult := some (.jexec r)
                    attemptCount := some attempt
                    executionTime := some r.execution_time }],
               .success code r)
          else
            let e := jsOr r.error "Unknown execution error"
            let evs := if attempt < maxAttempts then evs ++ [Event.delay (backoff attempt)] else evs
            (evs, .failure e (some code))

/-- Result of the whole retry loop. -/
inductive LoopResult where
  | success (attempt : Nat) (code : String) (r : ExecResult)
  | exhausted (lastError : Option String) (lastCode : String)
  | aborted (err : String)
deriving DecidableEq, Repr

/-- The for loop of processAutomationJob, with the remaining iteration
count as fuel (the loop runs for attempt = 1 .. maxAttempts and the
fuel at attempt a is maxAttempts + 1 - a), threading lastError and
lastCode. -/
def runLoopAux (envs : Nat → AttemptEnv) (taskId prompt : String) (url : Option String) (model : String)
    (maxAttempts : Nat) :
    Nat → Nat → Option String → String → List Event × LoopResult
  | 0, _, lastError, lastCode => ([], .exhausted lastError lastCode)
  | remaining + 1, attempt, _lastError, lastCode =>
    let (evs, o) := attemptStep (envs attempt) taskId prompt url model attempt maxAttempts
    match o with
    | .success c r => (evs, .success attempt c r)
    | .aborted e => (evs, .aborted e)
    | .failure e lcu =>
        let (evs2, res) :=
          runLoopAux envs taskId prompt url model maxAttempts remaining (attempt + 1)
            (some e) (lcu.getD lastCode)
        (evs ++ evs2, res)

/-- Environment of one run of processAutomationJob: per-attempt
environments plus error oracles for the three task-status updates
outside the loop (the initial update to processing, the exhaustion
update to awaiting_chat, and the update to failed in the outer catch). -/
structure RunEnv where
  envs : Nat → AttemptEnv
  initialUpdateErr : Option String := none
  exhaustUpdateErr : Option String := none
  failedUpdateErr : Option String := none

/-- Payload of an automation job (job.data). -/
structure JobData where
  taskId : String
  prompt : String
  websiteUrl : Option String
  maxAttempts : Nat := 3
  model : String := "gemini"
deriving DecidableEq, Repr

/-- Outcome of processAutomationJob as observed by processJob:
completed (return after a successful attempt), awaitingChat (loop
exhausted, exhaustion update written), runFailed (the outer catch
handled an error and the function resolves normally), or crashed (the
update inside the outer catch itself threw, so the promise rejects). -/
inductive RunOutcome where
  | completed (attempt : Nat)
  | awaitingChat
  | runFailed (err : String)
  | crashed (err : String)
deriving DecidableEq, Repr

/-- The outer catch of processAutomationJob: update the task to failed
with the error message; if that update throws, the rejection escapes. -/
def outerCatch (renv : RunEnv) (e : String) (evs : List Event) :
    List Event × RunOutcome :=
  match renv.failedUpdateErr with
  | some e2 => (evs, .crashed e2)
  | none =>
      (evs ++ [Event.updateTaskEv "failed" { errorMessage := some e }], .runFailed e)

/-- SimpleJobQueue.processAutomationJob: set the task to processing,
run the retry loop, and on exhaustion set the task to awaiting_chat
passing the last error, the attempt count, lastCode and chatEnabled;
any escaped exception is handled by the outer catch. -/
def processAutomationJob (renv : RunEnv) (jd : JobData) :
    List Event × RunOutcome :=
  match renv.initialUpdateErr with
  | some e => outerCatch renv e []
  | none =>
    let evs0 : List Event := [Event.updateTaskEv "processing" {}]
    let (evs, res) :=
      runLoopAux renv.envs jd.taskId jd.prompt jd.websiteUrl jd.model
        jd.maxAttempts jd.maxAttempts 1 none ""
    match res with
    | .success a _ _ => (evs0 ++ evs, .completed a)
    | .aborted e => outerCatch renv e (evs0 ++ evs)
    | .exhausted lastError lastCode =>
      match renv.exhaustUpdateErr with
      | some e => outerCatch renv e (evs0 ++ evs)
      | none =>
        (evs0 ++ evs ++
          [Event.updateTaskEv "awaiting_chat"
            { errorMessage := some (jsOr lastError "All attempts failed")
              attemptCount := some jd.maxAttempts
              lastCode := some lastCode
              chatEnabled := some true }],
         .awaitingChat)

/-- Property access task.attempts performed by the chat endpoint: the
row returned by db.getTask is the raw automation_tasks row (SELECT *),
whose columns include attempt_count but no column named attempts, so
the access yields undefined. -/
def TaskRow.attemptsProp (_ : TaskRow) : Option Nat := none

/-- Property access task.result performed by the chat endpoint: the raw
automation_tasks row has no column named result, so task.result is
undefined and both task.result?.errorMessage and task.result?.lastCode
are undefined. -/
def TaskRow.resultProp (_ : TaskRow) : Option String := none

/-- Property access task.websiteUrl performed by the chat and continue
endpoints: the raw automation_tasks row stores the URL in the
snake_case column website_url and has no property named websiteUrl, so
the access yields undefined. -/
def TaskRow.websiteUrlProp (_ : TaskRow) : Option String := none

/-- Task context assembled by the chat endpoint for the model call
(its websiteUrl field is the undefined task.websiteUrl access). -/
structure ChatContext where
  prompt : String
  websiteUrl : Option String
  attempts : Nat
  lastError : String
  lastCode : String
deriving DecidableEq, Repr

/-- Response of the chat endpoint. -/
inductive ChatResult where
  | badRequest
  | reply (response : String)
  | serverError (err : String)
deriving DecidableEq, Repr

/-- Attempt record stored by the chat endpoint for the interaction:
attempt number (task.attempts or 0) + 1, status chat_interaction, the
user message as generated code, and the reply as execution result. -/
def chatAttemptData (task : TaskRow) (message response : String) : AttemptData :=
  { taskId := task.task_id
    attemptNumber := (task.attemptsProp.getD 0) + 1
    status := "chat_interaction"
    generatedCode := some ("Chat: " ++ message)
    executionResult := some (.jchat response) }

/-- POST /tasks/:taskId/chat for an existing task: reject an empty
message; assemble the context from the task row (through the absent
attempts and result properties); call generateChatResponse (the chatGen
oracle: reply or throw); on success store the chat interaction as an
attempt record and answer with the reply; a throw anywhere is answered
with status 500 after no further writes. -/
def chatEndpoint (task : TaskRow) (message : String)
    (chatGen : ChatContext → Except String String) :
    List Event × ChatResult :=
  if message = "" then ([], .badRequest)
  else
    let ctx : ChatContext :=
      { prompt := task.prompt
        websiteUrl := task.websiteUrlProp
        attempts := task.attemptsProp.getD 0
        lastError := jsOr task.resultProp "Unknown error"
        lastCode := jsOr task.resultProp "" }
    match chatGen ctx with
    | .error e => ([], .serverError e)
    | .ok response =>
        ([Event.createAttemptEv (chatAttemptData task message response)],
         .reply response)

/-- POST /tasks/:taskId/continue for an existing task: reject an empty
refined prompt; otherwise update the task status to processing and
enqueue a new automation job whose prompt is the refined prompt, with
maxAttempts 3 and the same task identifier. The payload reads
task.websiteUrl and task.model, properties absent from the raw
snake_case row, so the job carries an undefined website URL and the
model falls back to the request model or the string gemini. -/
def continueEndpoint (task : TaskRow) (refinedPrompt : String)
    (model : Option String) : List Event × Option JobData :=
  if refinedPrompt = "" then ([], none)
  else
    ([Event.updateTaskEv "processing" {}],
     some
       { taskId := task.task_id
         prompt := refinedPrompt
         websiteUrl := task.websiteUrlProp
         maxAttempts := 3
         model := jsOr model (jsOr none "gemini") })

/-! ## SimpleJobQueue concurrency model

The queue (SimpleJobQueue) is a map of jobs in insertion order, a
currentlyProcessing counter, a processing flag and maxConcurrent = 2.
Its behaviour between awaits is modelled as a labelled transition
system: add appends a pending job and (re)starts the drain loop;
loopPick is one iteration of the while loop of startProcessing (picks
the first pending job, marks it processing, increments the counter);
loopStop is the loop exiting (counter full or nothing pending), which
clears the flag; finish is a processJob promise settling (the job
becomes completed or failed and the counter is decremented). loopPick,
loopStop and finish are the transitions the process performs on its
own; add only happens on an external submission. -/

/-- Status of a queue job. -/
inductive JobStatus where
  | pending
  | processing
  | completedJob
  | failedJob
deriving DecidableEq, Repr

/-- One entry of the in-memory job map. -/
structure QJob where
  jobId : Nat
  status : JobStatus
deriving DecidableEq, Repr

/-- State of SimpleJobQueue: the job map in insertion order, the
currentlyProcessing counter and the processing flag. -/
structure QueueState where
  jobs : List QJob
  currentlyProcessing : Nat
  processingFlag : Bool
deriving DecidableEq, Repr

/-- The maxConcurrent constant of SimpleJobQueue. -/
def maxConcurrent : Nat := 2

/-- Initial queue state. -/
def initialQueue : QueueState := { jobs := [], currentlyProcessing := 0, processingFlag := false }

/-- First pending job of the map, in insertion order (the source takes
pendingJobs[0] of the filtered array). -/
def firstPending (jobs : List QJob) : Option QJob :=
  jobs.find? (fun j => j.status == JobStatus.pending)

/-- Replacement of the status of the job with the given id. -/
def setStatus (jobs : List QJob) (id : Nat) (st : JobStatus) : List QJob :=
  jobs.map (fun j => if j.jobId == id then { j with status := st } else j)

/-- Transitions the queue performs by itself (without a new
submission). -/
inductive InternalStep : QueueState → QueueState → Prop where
  | loopPick (s : QueueState) (j : QJob) :
      s.processingFlag = true →
      s.currentlyProcessing < maxConcurrent →
      firstPending s.jobs = some j →
      InternalStep s
        { jobs := setStatus s.jobs j.jobId JobStatus.processing
          currentlyProcessing := s.currentlyProcessing + 1
          processingFlag := true }
  | loopStop (s : QueueState) :
      s.processingFlag = true →
      (s.currentlyProcessing ≥ maxConcurrent ∨ firstPending s.jobs = none) →
      InternalStep s { s with processingFlag := false }
  | finish (s : QueueState) (j : QJob) (ok : Bool) :
      j ∈ s.jobs →
      j.status = JobStatus.processing →
      InternalStep s
        { jobs := setStatus s.jobs j.jobId
            (if ok then JobStatus.completedJob else JobStatus.failedJob)
          currentlyProcessing := s.currentlyProcessing - 1
          processingFlag := s.processingFlag }

/-- Any transition: an internal step or an external add (SimpleJobQueue.add
appends a pending job and, when the flag is clear, calls
startProcessing, which sets the flag; when the flag is already set the
new job only joins the map). -/
inductive QStep : QueueState → QueueState → Prop where
  | internal (s t : QueueState) : InternalStep s t → QStep s t
  | add (s : QueueState) (id : Nat) :
      (∀ j ∈ s.jobs, j.jobId ≠ id) →
      QStep s
        { jobs := s.jobs ++ [{ jobId := id, status := JobStatus.pending }]
          currentlyProcessing := s.currentlyProcessing
          processingFlag := true }

/-- Reachability of queue states. -/
def QReachable : QueueState → QueueState → Prop :=
  Relation.ReflTransGen QStep

/-- Number of jobs in status processing. -/
def processingCount (s : QueueState) : Nat :=
  (s.jobs.filter (fun j => j.status == JobStatus.processing)).length

/-! ## Theorems -/

/-- Key uniqueness of the automation_attempts table: the unique
constraint on (task_id, attempt_number) that the upsert of
createAttempt relies on. -/
def KeyUnique (tbl : List AttemptRow) : Prop :=
  List.Pairwise
    (fun r s => ¬(r.task_id = s.task_id ∧ r.attempt_number = s.attempt_number)) tbl

lemma sameKey_mkAttemptRow (d : AttemptData) : sameKey (mkAttemptRow d) d = true := by
  simp [sameKey, mkAttemptRow]

lemma sameKey_trans_of_both {r s : AttemptRow} {d : AttemptData}
    (hr : sameKey r d = true) (hs : sameKey s d = true) :
    r.task_id = s.task_id ∧ r.attempt_number = s.attempt_number := by
  simp only [sameKey, Bool.and_eq_true, beq_iff_eq] at hr hs
  exact ⟨hr.1.trans hs.1.symm, hr.2.trans hs.2.symm⟩

lemma countP_key_le_one (tbl : List AttemptRow) (d : AttemptData)
    (hu : KeyUnique tbl) : tbl.countP (fun r => sameKey r d) ≤ 1 := by
  induction tbl with
  | nil => simp
  | cons r t ih =>
      cases hu with
      | cons hr hut =>
        rw [List.countP_cons]
        by_cases h : sameKey r d = true
        · have hz : t.countP (fun s => sameKey s d) = 0 := by
            rw [List.countP_eq_zero]
            intro s hs hsk
            exact hr s hs (sameKey_trans_of_both h hsk)
          simp [h, hz]
        · simp only [h, if_false]
          simpa using ih hut

/-- C5: writing attempt data for a (task, attemptNumber) pair that
already has a record overwrites that record with the newly built row
(every listed column takes the new value) in place, never creates a
second row (the row count is unchanged, and exactly one row with the
key remains), and leaves every other row in the table untouched. -/
theorem c5_attempt_upsert (tbl : List AttemptRow) (d : AttemptData)
    (hu : KeyUnique tbl) (hex : ∃ r ∈ tbl, sameKey r d = true) :
    (createAttemptSQL tbl d).length = tbl.length ∧
    (createAttemptSQL tbl d).countP (fun r => sameKey r d) = 1 ∧
    (∀ r ∈ createAttemptSQL tbl d, sameKey r d = true → r = mkAttemptRow d) ∧
    (∀ r ∈ tbl, sameKey r d = false → r ∈ createAttemptSQL tbl d) := by
  have hany : tbl.any (fun r => sameKey r d) = true := by
    rw [List.any_eq_true]
    obtain ⟨r, hr, hk⟩ := hex
    exact ⟨r, hr, hk⟩
  have hmap : createAttemptSQL tbl d =
      tbl.map (fun r => if sameKey r d then mkAttemptRow d else r) := by
    rw [createAttemptSQL, if_pos hany]
  refine ⟨?_, ?_, ?_, ?_⟩
  · rw [hmap, List.length_map]
  · rw [hmap, List.countP_map]
    have hcomp : ((fun r => sameKey r d) ∘
        fun r => if sameKey r d then mkAttemptRow d else r) =
        fun r => sameKey r d := by
      funext r
      by_cases h : sameKey r d = true
      · simp [h, sameKey_mkAttemptRow]
      · simp [h]
    rw [hcomp]
    have hle := countP_key_le_one tbl d hu
    have hpos : 0 < tbl.countP (fun r => sameKey r d) := by
      rw [List.countP_pos_iff]
      obtain ⟨r, hr, hk⟩ := hex
      exact ⟨r, hr, hk⟩
    omega
  · intro r hr hk
    rw [hmap] at hr
    obtain ⟨s, _, hs⟩ := List.mem_map.mp hr
    by_cases h : sameKey s d = true
    · rw [if_pos h] at hs
      exact hs.symm
    · rw [if_neg h] at hs
      subst hs
      exact absurd hk h
  · intro r hr hk
    rw [hmap]
    have : (if sameKey r d then mkAttemptRow d else r) = r := by
      rw [hk]
      simp
    rw [← this]
    exact List.mem_map_of_mem _ hr

/-- Concrete table and data for the C5 witness: an existing
processing row for attempt 1 of task T, overwritten by the final
write of that attempt. -/
def c5Tbl : List AttemptRow :=
  [{ task_id := "T", attempt_number := 1, status := "processing"
     generated_code := none, execution_result := none, error_message := none
     screenshots := none, execution_time_ms := none },
   { task_id := "T", attempt_number := 2, status := "failed"
     generated_code := none, execution_result := none, error_message := some "e"
     screenshots := none, execution_time_ms := none }]

def c5Data : AttemptData :=
  { taskId := "T", attemptNumber := 1, status := "completed"
    generatedCode := some "code", errorMessage := none
    executionResult := some (.jexec { success := true, execution_time := 2 })
    screenshots := some (.jarr []), executionTime := some 2 }

/-- Witness for C5 at a concrete table and write. -/
theorem c5_attempt_upsert_witness :
    KeyUnique c5Tbl ∧ (∃ r ∈ c5Tbl, sameKey r c5Data = true) ∧
    ((createAttemptSQL c5Tbl c5Data).length = c5Tbl.length ∧
     (createAttemptSQL c5Tbl c5Data).countP (fun r => sameKey r c5Data) = 1 ∧
     (∀ r ∈ createAttemptSQL c5Tbl c5Data, sameKey r c5Data = true → r = mkAttemptRow c5Data) ∧
     (∀ r ∈ c5Tbl, sameKey r c5Data = false → r ∈ createAttemptSQL c5Tbl c5Data)) := by
  refine ⟨?_, ?_, ?_⟩
  · unfold KeyUnique c5Tbl
    decide
  · exact ⟨c5Tbl[0], by decide, by decide⟩
  · exact c5_attempt_upsert c5Tbl c5Data
      (by unfold KeyUnique c5Tbl; decide)
      ⟨c5Tbl[0], by decide, by decide⟩

/-- Discriminant of a column update: which column it writes. -/
def colKind : ColUpdate → Nat
  | .statusCol _ => 0
  | .updatedAt => 1
  | .generatedCode _ => 2
  | .executionResult _ => 3
  | .errorMessage _ => 4
  | .screenshots _ => 5
  | .executionTimeMs _ => 6
  | .attemptCount _ => 7
  | .completedAt => 8

lemma foldl_status_eq (now : Nat) : ∀ (l : List ColUpdate) (row : TaskRow),
    (∀ u ∈ l, colKind u ≠ 0) →
    (l.foldl (applyColUpdate now) row).status = row.status
  | [], _, _ => rfl
  | u :: t, row, h => by
      rw [List.foldl_cons,
        foldl_status_eq now t _ (fun v hv => h v (List.mem_cons_of_mem u hv))]
      have hu := h u (List.mem_cons_self u t)
      cases u <;> simp_all [applyColUpdate, colKind]

lemma foldl_updatedAt_eq (now : Nat) : ∀ (l : List ColUpdate) (row : TaskRow),
    (∀ u ∈ l, colKind u ≠ 1) →
    (l.foldl (applyColUpdate now) row).updated_at = row.updated_at
  | [], _, _ => rfl
  | u :: t, row, h => by
      rw [List.foldl_cons,
        foldl_updatedAt_eq now t _ (fun v hv => h v (List.mem_cons_of_mem u hv))]
      have hu := h u (List.mem_cons_self u t)
      cases u <;> simp_all [applyColUpdate, colKind]

lemma foldl_genCode_eq (now : Nat) : ∀ (l : List ColUpdate) (row : TaskRow),
    (∀ u ∈ l, colKind u ≠ 2) →
    (l.foldl (applyColUpdate now) row).generated_code = row.generated_code
  | [], _, _ => rfl
  | u :: t, row, h => by
      rw [List.foldl_cons,
        foldl_genCode_eq now t _ (fun v hv => h v (List.mem_cons_of_mem u hv))]
      have hu := h u (List.mem_cons_self u t)
      cases u <;> simp_all [applyColUpdate, colKind]

lemma foldl_execResult_eq (now : Nat) : ∀ (l : List ColUpdate) (row : TaskRow),
    (∀ u ∈ l, colKind u ≠ 3) →
    (l.foldl (applyColUpdate now) row).execution_result = row.execution_result
  | [], _, _ => rfl
  | u :: t, row, h => by
      rw [List.foldl_cons,
        foldl_execResult_eq now t _ (fun v hv => h v (List.mem_cons_of_mem u hv))]
      have hu := h u (List.mem_cons_self u t)
      cases u <;> simp_all [applyColUpdate, colKind]

lemma foldl_errMsg_eq (now : Nat) : ∀ (l : List ColUpdate) (row : TaskRow),
    (∀ u ∈ l, colKind u ≠ 4) →
    (l.foldl (applyColUpdate now) row).error_message = row.error_message
  | [], _, _ => rfl
  | u :: t, row, h => by
      rw [List.foldl_cons,
        foldl_errMsg_eq now t _ (fun v hv => h v (List.mem_cons_of_mem u hv))]
      have hu := h u (List.mem_cons_self u t)
      cases u <;> simp_all [applyColUpdate, colKind]

lemma foldl_shots_eq (now : Nat) : ∀ (l : List ColUpdate) (row : TaskRow),
    (∀ u ∈ l, colKind u ≠ 5) →
    (l.foldl (applyColUpdate now) row).screenshots = row.screenshots
  | [], _, _ => rfl
  | u :: t, row, h => by
      rw [List.foldl_cons,
        foldl_shots_eq now t _ (fun v hv => h v (List.mem_cons_of_mem u hv))]
      have hu := h u (List.mem_cons_self u t)
      cases u <;> simp_all [applyColUpdate, colKind]

lemma foldl_execTime_eq (now : Nat) : ∀ (l : List ColUpdate) (row : TaskRow),
    (∀ u ∈ l, colKind u ≠ 6) →
    (l.foldl (applyColUpdate now) row).execution_time_ms = row.execution_time_ms
  | [], _, _ => rfl
  | u :: t, row, h => by
      rw [List.foldl_cons,
        foldl_execTime_eq now t _ (fun v hv => h v (List.mem_cons_of_mem u hv))]
      have hu := h u (List.mem_cons_self u t)
      cases u <;> simp_all [applyColUpdate, colKind]

lemma foldl_attemptCount_eq (now : Nat) : ∀ (l : List ColUpdate) (row : TaskRow),
    (∀ u ∈ l, colKind u ≠ 7) →
    (l.foldl (applyColUpdate now) row).attempt_count = row.attempt_count
  | [], _, _ => rfl
  | u :: t, row, h => by
      rw [List.foldl_cons,
        foldl_attemptCount_eq now t _ (fun v hv => h v (List.mem_cons_of_mem u hv))]
      have hu := h u (List.mem_cons_self u t)
      cases u <;> simp_all [applyColUpdate, colKind]

lemma foldl_completedAt_eq (now : Nat) : ∀ (l : List ColUpdate) (row : TaskRow),
    (∀ u ∈ l, colKind u ≠ 8) →
    (l.foldl (applyColUpdate now) row).completed_at = row.completed_at
  | [], _, _ => rfl
  | u :: t, row, h => by
      rw [List.foldl_cons,
        foldl_completedAt_eq now t _ (fun v hv => h v (List.mem_cons_of_mem u hv))]
      have hu := h u (List.mem_cons_self u t)
      cases u <;> simp_all [applyColUpdate, colKind]

lemma foldl_immutable_cols (now : Nat) : ∀ (l : List ColUpdate) (row : TaskRow),
    (l.foldl (applyColUpdate now) row).task_id = row.task_id ∧
    (l.foldl (applyColUpdate now) row).prompt = row.prompt ∧
    (l.foldl (applyColUpdate now) row).website_url = row.website_url ∧
    (l.foldl (applyColUpdate now) row).max_attempts = row.max_attempts ∧
    (l.foldl (applyColUpdate now) row).created_at = row.created_at
  | [], _ => ⟨rfl, rfl, rfl, rfl, rfl⟩
  | u :: t, row => by
      rw [List.foldl_cons]
      have ih := foldl_immutable_cols now t (applyColUpdate now row u)
      have hu : (applyColUpdate now row u).task_id = row.task_id ∧
          (applyColUpdate now row u).prompt = row.prompt ∧
          (applyColUpdate now row u).website_url = row.website_url ∧
          (applyColUpdate now row u).max_attempts = row.max_attempts ∧
          (applyColUpdate now row u).created_at = row.created_at := by
        cases u <;> simp [applyColUpdate]
      exact ⟨ih.1.trans hu.1, ih.2.1.trans hu.2.1, ih.2.2.1.trans hu.2.2.1,
        ih.2.2.2.1.trans hu.2.2.2.1, ih.2.2.2.2.trans hu.2.2.2.2⟩

lemma kind_updGenCodeSeg (gc : Option String) :
    ∀ u ∈ updGenCodeSeg gc, colKind u = 2 := by
  rcases gc with _ | s <;> simp only [updGenCodeSeg] <;> try split_ifs
  all_goals simp [colKind]

lemma kind_updExecResultSeg (er : Option JVal) :
    ∀ u ∈ updExecResultSeg er, colKind u = 3 := by
  rcases er with _ | v <;> simp only [updExecResultSeg] <;> try split_ifs
  all_goals simp [colKind]

lemma kind_updErrMsgSeg (em : Option String) :
    ∀ u ∈ updErrMsgSeg em, colKind u = 4 := by
  rcases em with _ | s <;> simp only [updErrMsgSeg] <;> try split_ifs
  all_goals simp [colKind]

lemma kind_updShotsSeg (sc : Option JVal) :
    ∀ u ∈ updShotsSeg sc, colKind u = 5 := by
  rcases sc with _ | v <;> simp only [updShotsSeg] <;> try split_ifs
  all_goals simp [colKind]

lemma kind_updExecTimeSeg (et : Option Nat) :
    ∀ u ∈ updExecTimeSeg et, colKind u = 6 := by
  rcases et with _ | t <;> simp only [updExecTimeSeg] <;> try split_ifs
  all_goals simp [colKind]

lemma kind_updAttemptCountSeg (ac : Option Nat) :
    ∀ u ∈ updAttemptCountSeg ac, colKind u = 7 := by
  rcases ac with _ | n <;> simp [updAttemptCountSeg, colKind]

lemma kind_updCompletedAtSeg (status : String) :
    ∀ u ∈ updCompletedAtSeg status, colKind u = 8 := by
  simp only [updCompletedAtSeg]
  split_ifs <;> simp [colKind]

lemma kind_ne {l : List ColUpdate} {k : Nat}
    (hk : ∀ u ∈ l, colKind u = k) {m : Nat} (hm : k ≠ m) :
    ∀ u ∈ l, colKind u ≠ m :=
  fun u hu => by rw [hk u hu]; exact hm

/-- C10: updateTaskStatus always writes the status and the last-update
timestamp; each of generated_code, execution_result, error_message,
screenshots and execution_time_ms is written only when the supplied
value is truthy (an empty string or a zero leaves the stored column
unchanged); attempt_count is written whenever attemptCount is defined,
including zero; completed_at is set exactly when the new status is
completed; and every other column of the task row is unchanged. -/
theorem c10_update_task_status (row : TaskRow) (status : String)
    (d : UpdateData) (now : Nat) :
    (updateTaskStatusSQL row status d now).status = status ∧
    (updateTaskStatusSQL row status d now).updated_at = now ∧
    (updateTaskStatusSQL row status d now).generated_code =
      (match d.generatedCode with
       | some s => if s = "" then row.generated_code else some s
       | none => row.generated_code) ∧
    (updateTaskStatusSQL row status d now).execution_result =
      (match d.executionResult with
       | some v => if v.truthy then some (serializeJVal v) else row.execution_result
       | none => row.execution_result) ∧
    (updateTaskStatusSQL row status d now).error_message =
      (match d.errorMessage with
       | some s => if s = "" then row.error_message else some s
       | none => row.error_message) ∧
    (updateTaskStatusSQL row status d now).screenshots =
      (match d.screenshots with
       | some v => if v.truthy then some (serializeJVal v) else row.screenshots
       | none => row.screenshots) ∧
    (updateTaskStatusSQL row status d now).execution_time_ms =
      (match d.executionTime with
       | some t => if t = 0 then row.execution_time_ms else some (t * 1000)
       | none => row.execution_time_ms) ∧
    (updateTaskStatusSQL row status d now).attempt_count =
      (match d.attemptCount with
       | some n => some n
       | none => row.attempt_count) ∧
    (updateTaskStatusSQL row status d now).completed_at =
      (if status = "completed" then some now else row.completed_at) ∧
    (updateTaskStatusSQL row status d now).task_id = row.task_id ∧
    (updateTaskStatusSQL row status d now).prompt = row.prompt ∧
    (updateTaskStatusSQL row status d now).website_url = row.website_url ∧
    (updateTaskStatusSQL row status d now).max_attempts = row.max_attempts ∧
    (updateTaskStatusSQL row status d now).created_at = row.created_at := by
  have hG := kind_updCompletedAtSeg status
  have hF := kind_updAttemptCountSeg d.attemptCount
  have hE := kind_updExecTimeSeg d.executionTime
  have hD := kind_updShotsSeg d.screenshots
  have hC := kind_updErrMsgSeg d.errorMessage
  have hB := kind_updExecResultSeg d.executionResult
  have hA := kind_updGenCodeSeg d.generatedCode
  have himm := foldl_immutable_cols now (buildUpdates status d) row
  simp only [updateTaskStatusSQL, List.foldl_append, buildUpdates,
    List.foldl_cons, List.foldl_nil, applyColUpdate]
  simp only [updateTaskStatusSQL] at himm
  refine ⟨?_, ?_, ?_, ?_, ?_, ?_, ?_, ?_, ?_, ?_, ?_, ?_, ?_, ?_⟩
  · rw [foldl_status_eq now _ _ (kind_ne hG (by omega)),
      foldl_status_eq now _ _ (kind_ne hF (by omega)),
      foldl_status_eq now _ _ (kind_ne hE (by omega)),
      foldl_status_eq now _ _ (kind_ne hD (by omega)),
      foldl_status_eq now _ _ (kind_ne hC (by omega)),
      foldl_status_eq now _ _ (kind_ne hB (by omega)),
      foldl_status_eq now _ _ (kind_ne hA (by omega))]
  · rw [foldl_updatedAt_eq now _ _ (kind_ne hG (by omega)),
      foldl_updatedAt_eq now _ _ (kind_ne hF (by omega)),
      foldl_updatedAt_eq now _ _ (kind_ne hE (by omega)),
      foldl_updatedAt_eq now _ _ (kind_ne hD (by omega)),
      foldl_updatedAt_eq now _ _ (kind_ne hC (by omega)),
      foldl_updatedAt_eq now _ _ (kind_ne hB (by omega)),
      foldl_updatedAt_eq now _ _ (kind_ne hA (by omega))]
  · rw [foldl_genCode_eq now _ _ (kind_ne hG (by omega)),
      foldl_genCode_eq now _ _ (kind_ne hF (by omega)),
      foldl_genCode_eq now _ _ (kind_ne hE (by omega)),
      foldl_genCode_eq now _ _ (kind_ne hD (by omega)),
      foldl_genCode_eq now _ _ (kind_ne hC (by omega)),
      foldl_genCode_eq now _ _ (kind_ne hB (by omega))]
    rcases hgc : d.generatedCode with _ | s
    · simp [hgc, updGenCodeSeg]
    · simp only [hgc, updGenCodeSeg]
      split_ifs with hs <;> simp [hs, applyColUpdate]
  · rw [foldl_execResult_eq now _ _ (kind_ne hG (by omega)),
      foldl_execResult_eq now _ _ (kind_ne hF (by omega)),
      foldl_execResult_eq now _ _ (kind_ne hE (by omega)),
      foldl_execResult_eq now _ _ (kind_ne hD (by omega)),
      foldl_execResult_eq now _ _ (kind_ne hC (by omega))]
    rcases her : d.executionResult with _ | v
    · simp [her, updExecResultSeg]
      rw [foldl_execResult_eq now _ _ (kind_ne hA (by omega))]
    · simp only [her, updExecResultSeg]
      split_ifs with hv
      · simp [hv, applyColUpdate]
      · simp [hv]
        rw [foldl_execResult_eq now _ _ (kind_ne hA (by omega))]
  · rw [foldl_errMsg_eq now _ _ (kind_ne hG (by omega)),
      foldl_errMsg_eq now _ _ (kind_ne hF (by omega)),
      foldl_errMsg_eq now _ _ (kind_ne hE (by omega)),
      foldl_errMsg_eq now _ _ (kind_ne hD (by omega))]
    rcases hem : d.errorMessage with _ | s
    · simp [hem, updErrMsgSeg]
      rw [foldl_errMsg_eq now _ _ (kind_ne hB (by omega)),
        foldl_errMsg_eq now _ _ (kind_ne hA (by omega))]
    · simp only [hem, updErrMsgSeg]
      split_ifs with hs
      · simp [hs]
        rw [foldl_errMsg_eq now _ _ (kind_ne hB (by omega)),
          foldl_errMsg_eq now _ _ (kind_ne hA (by omega))]
      · simp [hs, applyColUpdate]
  · rw [foldl_shots_eq now _ _ (kind_ne hG (by omega)),
      foldl_shots_eq now _ _ (kind_ne hF (by omega)),
      foldl_shots_eq now _ _ (kind_ne hE (by omega))]
    rcases hsc : d.screenshots with _ | v
    · simp [hsc, updShotsSeg]
      rw [foldl_shots_eq now _ _ (kind_ne hC (by omega)),
        foldl_shots_eq now _ _ (kind_ne hB (by omega)),
        foldl_shots_eq now _ _ (kind_ne hA (by omega))]
    · simp only [hsc, updShotsSeg]
      split_ifs with hv
      · simp [hv, applyColUpdate]
      · simp [hv]
        rw [foldl_shots_eq now _ _ (kind_ne hC (by omega)),
          foldl_shots_eq now _ _ (kind_ne hB (by omega)),
          foldl_shots_eq now _ _ (kind_ne hA (by omega))]
  · rw [foldl_execTime_eq now _ _ (kind_ne hG (by omega)),
      foldl_execTime_eq now _ _ (kind_ne hF (by omega))]
    rcases het : d.executionTime with _ | t
    · simp [het, updExecTimeSeg]
      rw [foldl_execTime_eq now _ _ (kind_ne hD (by omega)),
        foldl_execTime_eq now _ _ (kind_ne hC (by omega)),
        foldl_execTime_eq now _ _ (kind_ne hB (by omega)),
        foldl_execTime_eq now _ _ (kind_ne hA (by omega))]
    · simp only [het, updExecTimeSeg]
      split_ifs with ht
      · simp [ht]
        rw [foldl_execTime_eq now _ _ (kind_ne hD (by omega)),
          foldl_execTime_eq now _ _ (kind_ne hC (by omega)),
          foldl_execTime_eq now _ _ (kind_ne hB (by omega)),
          foldl_execTime_eq now _ _ (kind_ne hA (by omega))]
      · simp [ht, applyColUpdate]
  · rw [foldl_attemptCount_eq now _ _ (kind_ne hG (by omega))]
    rcases hac : d.attemptCount with _ | n
    · simp [hac, updAttemptCountSeg]
      rw [foldl_attemptCount_eq now _ _ (kind_ne hE (by omega)),
        foldl_attemptCount_eq now _ _ (kind_ne hD (by omega)),
        foldl_attemptCount_eq now _ _ (kind_ne hC (by omega)),
        foldl_attemptCount_eq now _ _ (kind_ne hB (by omega)),
        foldl_attemptCount_eq now _ _ (kind_ne hA (by omega))]
    · simp [hac, updAttemptCountSeg, applyColUpdate]
  · simp only [updCompletedAtSeg]
    split_ifs with hst
    · simp [applyColUpdate]
    · simp only [List.foldl_nil]
      rw [foldl_completedAt_eq now _ _ (kind_ne hF (by omega)),
        foldl_completedAt_eq now _ _ (kind_ne hE (by omega)),
        foldl_completedAt_eq now _ _ (kind_ne hD (by omega)),
        foldl_completedAt_eq now _ _ (kind_ne hC (by omega)),
        foldl_completedAt_eq now _ _ (kind_ne hB (by omega)),
        foldl_completedAt_eq now _ _ (kind_ne hA (by omega))]
  · simpa only [buildUpdates, List.foldl_append, List.foldl_cons,
      List.foldl_nil, applyColUpdate] using himm.1
  · simpa only [buildUpdates, List.foldl_append, List.foldl_cons,
      List.foldl_nil, applyColUpdate] using himm.2.1
  · simpa only [buildUpdates, List.foldl_append, List.foldl_cons,
      List.foldl_nil, applyColUpdate] using himm.2.2.1
  · simpa only [buildUpdates, List.foldl_append, List.foldl_cons,
      List.foldl_nil, applyColUpdate] using himm.2.2.2.1
  · simpa only [buildUpdates, List.foldl_append, List.foldl_cons,
      List.foldl_nil, applyColUpdate] using himm.2.2.2.2

/-- Delay events of a trace, in order. -/
def delaysOf (evs : List Event) : List Nat :=
  evs.filterMap (fun e => match e with | .delay n => some n | _ => none)

set_option maxHeartbeats 3200000 in
/-- C3: a failing attempt i (generation failure, execution failure, or
any error caught at the attempt boundary) with i < maxAttempts inserts
exactly one backoff delay of min(1000 * 2^(i-1), 10000) milliseconds
before the next attempt; the final attempt inserts no delay, and a
successful or aborted attempt inserts no delay. -/
theorem c3_backoff_delay (env : AttemptEnv) (taskId prompt : String) (url : Option String) (model : String)
    (i M : Nat) (h1 : 1 ≤ i) :
    (i < M →
      ∀ e lcu, (attemptStep env taskId prompt url model i M).2 = .failure e lcu →
        delaysOf (attemptStep env taskId prompt url model i M).1 =
          [min (1000 * 2 ^ (i - 1)) 10000]) ∧
    (M ≤ i → delaysOf (attemptStep env taskId prompt url model i M).1 = []) ∧
    (∀ c r, (attemptStep env taskId prompt url model i M).2 = .success c r →
      delaysOf (attemptStep env taskId prompt url model i M).1 = []) ∧
    (∀ e, (attemptStep env taskId prompt url model i M).2 = .aborted e →
      delaysOf (attemptStep env taskId prompt url model i M).1 = []) := by
  clear h1
  rcases env with ⟨gen, ⟨suc, err, shots, etime⟩, cpe, cee, cfe, uce, cce⟩
  rcases cpe with _ | e1 <;> rcases cce with _ | e7 <;> rcases gen with e2 | code <;>
    rcases cee with _ | e3 <;> rcases cfe with _ | e4 <;> rcases uce with _ | e5 <;>
    rcases suc with _ | _ <;>
    simp only [attemptStep, catchBlock, backoff] <;>
    (try split_ifs) <;>
    simp_all [delaysOf, List.filterMap_append]

/-- Concrete attempt environment for the C3 witness: generation throws. -/
def c3Env : AttemptEnv :=
  { gen := .error "quota exceeded", exec := { success := false } }

/-- Witness for C3 at attempt 1 of 3. -/
theorem c3_backoff_delay_witness :
    1 ≤ 1 ∧
    ((1 < 3 →
      ∀ e lcu, (attemptStep c3Env "T" "p" (some "u") "m" 1 3).2 = .failure e lcu →
        delaysOf (attemptStep c3Env "T" "p" (some "u") "m" 1 3).1 =
          [min (1000 * 2 ^ (1 - 1)) 10000]) ∧
    (3 ≤ 1 → delaysOf (attemptStep c3Env "T" "p" (some "u") "m" 1 3).1 = []) ∧
    (∀ c r, (attemptStep c3Env "T" "p" (some "u") "m" 1 3).2 = .success c r →
      delaysOf (attemptStep c3Env "T" "p" (some "u") "m" 1 3).1 = []) ∧
    (∀ e, (attemptStep c3Env "T" "p" (some "u") "m" 1 3).2 = .aborted e →
      delaysOf (attemptStep c3Env "T" "p" (some "u") "m" 1 3).1 = [])) :=
  ⟨by decide, c3_backoff_delay c3Env "T" "p" (some "u") "m" 1 3 (by decide)⟩

/-- Attempt numbers of the attempt records written in a trace. -/
def attemptNumsOf (evs : List Event) : List Nat :=
  evs.filterMap (fun e => match e with | .createAttemptEv d => some d.attemptNumber | _ => none)

/-- Prompts passed to the code-generation calls of a trace. -/
def genPromptsOf (evs : List Event) : List String :=
  evs.filterMap (fun e => match e with | .genCall p _ _ => some p | _ => none)

/-- Task-status updates of a trace, as (status, data) pairs in order. -/
def updateEventsOf (evs : List Event) : List (String × UpdateData) :=
  evs.filterMap (fun e => match e with | .updateTaskEv s d => some (s, d) | _ => none)

/-- Execution calls of a trace. -/
def execCallsOf (evs : List Event) : List String :=
  evs.filterMap (fun e => match e with | .execCall c _ => some c | _ => none)

/-- All five database calls of a loop iteration succeed. -/
def AttemptEnv.persistOk (e : AttemptEnv) : Prop :=
  e.createProcessingErr = none ∧ e.createExecutingErr = none ∧
  e.createFinalErr = none ∧ e.updateCompletedErr = none ∧ e.createCatchErr = none

/-- The iteration generates code and its execution reports success. -/
def AttemptEnv.succeeds (e : AttemptEnv) : Prop :=
  (∃ c, e.gen = .ok c) ∧ e.exec.success = true

/-- Error recorded in lastError by a failing iteration whose database
calls all succeed: the generation error when generation threw,
otherwise the execution error (or the fallback text). -/
def attemptErrOf (e : AttemptEnv) : String :=
  match e.gen with
  | .error g => g
  | .ok _ => jsOr e.exec.error "Unknown execution error"

lemma attemptStep_gen_error (env : AttemptEnv) (t p : String) (u : Option String) (m : String) (i M : Nat)
    (hok : env.persistOk) (g : String) (hg : env.gen = .error g) :
    attemptStep env t p u m i M =
      ((if i < M then
          [Event.createAttemptEv
            { taskId := t, attemptNumber := i, status := "processing" },
           Event.genCall p u m,
           Event.createAttemptEv
            { taskId := t, attemptNumber := i, status := "failed", errorMessage := some g },
           Event.delay (backoff i)]
        else
          [Event.createAttemptEv
            { taskId := t, attemptNumber := i, status := "processing" },
           Event.genCall p u m,
           Event.createAttemptEv
            { taskId := t, attemptNumber := i, status := "failed", errorMessage := some g }]),
       .failure g none) := by
  obtain ⟨h1, h2, h3, h4, h5⟩ := hok
  simp only [attemptStep, catchBlock, h1, h5, hg]
  split_ifs <;> simp

lemma attemptStep_exec_fail (env : AttemptEnv) (t p : String) (u : Option String) (m : String) (i M : Nat)
    (hok : env.persistOk) (c : String) (hg : env.gen = .ok c)
    (hs : env.exec.success = false) :
    attemptStep env t p u m i M =
      ((if i < M then
          [Event.createAttemptEv
            { taskId := t, attemptNumber := i, status := "processing" },
           Event.genCall p u m,
           Event.createAttemptEv
            { taskId := t, attemptNumber := i, status := "executing", generatedCode := some c },
           Event.execCall c u,
           Event.createAttemptEv
            { taskId := t, attemptNumber := i, status := "failed",
              generatedCode := some c, executionResult := some (.jexec env.exec),
              errorMessage := env.exec.error,
              screenshots := some (.jarr env.exec.screenshots),
              executionTime := some env.exec.execution_time },
           Event.delay (backoff i)]
        else
          [Event.createAttemptEv
            { taskId := t, attemptNumber := i, status := "processing" },
           Event.genCall p u m,
           Event.createAttemptEv
            { taskId := t, attemptNumber := i, status := "executing", generatedCode := some c },
           Event.execCall c u,
           Event.createAttemptEv
            { taskId := t, attemptNumber := i, status := "failed",
              generatedCode := some c, executionResult := some (.jexec env.exec),
              errorMessage := env.exec.error,
              screenshots := some (.jarr env.exec.screenshots),
              executionTime := some env.exec.execution_time }]),
       .failure (jsOr env.exec.error "Unknown execution error") (some c)) := by
  obtain ⟨h1, h2, h3, h4, h5⟩ := hok
  simp only [attemptStep, catchBlock, h1, h2, h3, h4, h5, hg, hs]
  split_ifs <;> simp_all

lemma attemptStep_success (env : AttemptEnv) (t p : String) (u : Option String) (m : String) (i M : Nat)
    (hok : env.persistOk) (c : String) (hg : env.gen = .ok c)
    (hs : env.exec.success = true) :
    attemptStep env t p u m i M =
      ([Event.createAttemptEv
          { taskId := t, attemptNumber := i, status := "processing" },
        Event.genCall p u m,
        Event.createAttemptEv
          { taskId := t, attemptNumber := i, status := "executing", generatedCode := some c },
        Event.execCall c u,
        Event.createAttemptEv
          { taskId := t, attemptNumber := i, status := "completed",
            generatedCode := some c, executionResult := some (.jexec env.exec),
            errorMessage := env.exec.error,
            screenshots := some (.jarr env.exec.screenshots),
            executionTime := some env.exec.execution_time },
        Event.updateTaskEv "completed"
          { generatedCode := some c, executionResult := some (.jexec env.exec),
            executionTime := some env.exec.execution_time, attemptCount := some i }],
       .success c env.exec) := by
  obtain ⟨h1, h2, h3, h4, h5⟩ := hok
  simp [attemptStep, catchBlock, h1, h2, h3, h4, hg, hs]

lemma attemptNumsOf_append (l1 l2 : List Event) :
    attemptNumsOf (l1 ++ l2) = attemptNumsOf l1 ++ attemptNumsOf l2 :=
  List.filterMap_append l1 l2 _

lemma genPromptsOf_append (l1 l2 : List Event) :
    genPromptsOf (l1 ++ l2) = genPromptsOf l1 ++ genPromptsOf l2 :=
  List.filterMap_append l1 l2 _

lemma updateEventsOf_append (l1 l2 : List Event) :
    updateEventsOf (l1 ++ l2) = updateEventsOf l1 ++ updateEventsOf l2 :=
  List.filterMap_append l1 l2 _

lemma applyTaskEvents_append (row : TaskRow) (l1 l2 : List Event) :
    applyTaskEvents row (l1 ++ l2) = applyTaskEvents (applyTaskEvents row l1) l2 :=
  List.foldl_append _ _ _ _

lemma applyAttemptEvents_append (tbl : List AttemptRow) (l1 l2 : List Event) :
    applyAttemptEvents tbl (l1 ++ l2) =
      applyAttemptEvents (applyAttemptEvents tbl l1) l2 :=
  List.foldl_append _ _ _ _

lemma attemptStep_fail_facts (env : AttemptEnv) (t p : String) (u : Option String) (m : String) (a M : Nat)
    (hok : env.persistOk) (hfail : ¬ env.succeeds) :
    ∃ stepEvs lcu,
      attemptStep env t p u m a M = (stepEvs, .failure (attemptErrOf env) lcu) ∧
      updateEventsOf stepEvs = [] ∧
      (attemptNumsOf stepEvs).toFinset = {a} ∧
      (∀ q ∈ genPromptsOf stepEvs, q = p) ∧
      (attemptNumsOf stepEvs).head? = some a := by
  rcases hgen : env.gen with g | c
  · have he : attemptErrOf env = g := by simp [attemptErrOf, hgen]
    rw [attemptStep_gen_error env t p u m a M hok g hgen, he]
    refine ⟨_, none, rfl, ?_, ?_, ?_, ?_⟩ <;>
      split_ifs <;> simp [updateEventsOf, attemptNumsOf, genPromptsOf]
  · have hs : env.exec.success = false := by
      rcases Bool.eq_false_or_eq_true env.exec.success with h | h
      · exact absurd ⟨⟨c, hgen⟩, h⟩ hfail
      · exact h
    have he : attemptErrOf env = jsOr env.exec.error "Unknown execution error" := by
      simp [attemptErrOf, hgen]
    rw [attemptStep_exec_fail env t p u m a M hok c hgen hs, he]
    refine ⟨_, some c, rfl, ?_, ?_, ?_, ?_⟩ <;>
      split_ifs <;> simp [updateEventsOf, attemptNumsOf, genPromptsOf]

lemma runLoopAux_all_fail (envs : Nat → AttemptEnv) (t p : String) (u : Option String) (m : String) (M : Nat) :
    ∀ (n a : Nat) (le : Option String) (lc : String),
      0 < n →
      (∀ k, a ≤ k → k < a + n → (envs k).persistOk) →
      (∀ k, a ≤ k → k < a + n → ¬ (envs k).succeeds) →
      ∃ evs lcF,
        runLoopAux envs t p u m M n a le lc =
          (evs, .exhausted (some (attemptErrOf (envs (a + n - 1)))) lcF) ∧
        updateEventsOf evs = [] ∧
        (attemptNumsOf evs).toFinset = Finset.Ico a (a + n) ∧
        (∀ q ∈ genPromptsOf evs, q = p) ∧
        (attemptNumsOf evs).head? = some a := by
  intro n
  induction n with
  | zero => intro a le lc h0 _ _; omega
  | succ n' ih =>
    intro a le lc _ hok hfail
    have hoka := hok a (le_refl a) (by omega)
    have hfaila := hfail a (le_refl a) (by omega)
    obtain ⟨stepEvs, lcu, hstep, hupd, hnums, hpr, hhead⟩ :=
      attemptStep_fail_facts (envs a) t p u m a M hoka hfaila
    by_cases hz : n' = 0
    · subst hz
      refine ⟨stepEvs, lcu.getD lc, ?_, hupd, ?_, hpr, hhead⟩
      · show runLoopAux envs t p u m M (0 + 1) a le lc = _
        simp only [runLoopAux, hstep]
        have harith : a + (0 + 1) - 1 = a := by omega
        rw [harith]
        simp
      · rw [hnums]
        ext x
        simp only [Finset.mem_singleton, Finset.mem_Ico]
        omega
    · have h0' : 0 < n' := Nat.pos_of_ne_zero hz
      obtain ⟨evs2, lcF, hrec, hupd2, hnums2, hpr2, hhead2⟩ :=
        ih (a + 1) (some (attemptErrOf (envs a))) (lcu.getD lc) h0'
          (fun k hk1 hk2 => hok k (by omega) (by omega))
          (fun k hk1 hk2 => hfail k (by omega) (by omega))
      have harith : a + 1 + n' - 1 = a + (n' + 1) - 1 := by omega
      rw [harith] at hrec
      refine ⟨stepEvs ++ evs2, lcF, ?_, ?_, ?_, ?_, ?_⟩
      · simp only [runLoopAux, hstep, hrec]
      · rw [updateEventsOf_append, hupd, hupd2]
        rfl
      · rw [attemptNumsOf_append, List.toFinset_append, hnums, hnums2]
        ext x
        simp only [Finset.mem_union, Finset.mem_singleton, Finset.mem_Ico]
        omega
      · intro q hq
        rw [genPromptsOf_append] at hq
        rcases List.mem_append.mp hq with h | h
        · exact hpr q h
        · exact hpr2 q h
      · rw [attemptNumsOf_append]
        rcases hl : attemptNumsOf stepEvs with _ | ⟨y, ys⟩
        · rw [hl] at hhead
          exact absurd hhead (by simp)
        · rw [hl] at hhead
          simpa using hhead

lemma runLoopAux_success (envs : Nat → AttemptEnv) (t p : String) (u : Option String) (m : String) (M : Nat) :
    ∀ (n a : Nat) (le : Option String) (lc : String) (i : Nat) (c : String),
      a ≤ i → i < a + n →
      (∀ k, a ≤ k → k < i → (envs k).persistOk) →
      (∀ k, a ≤ k → k < i → ¬ (envs k).succeeds) →
      (envs i).persistOk →
      (envs i).gen = .ok c →
      (envs i).exec.success = true →
      ∃ evs,
        runLoopAux envs t p u m M n a le lc = (evs, .success i c (envs i).exec) ∧
        updateEventsOf evs =
          [("completed",
            { generatedCode := some c, executionResult := some (.jexec (envs i).exec),
              executionTime := some (envs i).exec.execution_time,
              attemptCount := some i })] ∧
        (attemptNumsOf evs).toFinset = Finset.Icc a i ∧
        (∀ q ∈ genPromptsOf evs, q = p) ∧
        (attemptNumsOf evs).head? = some a := by
  intro n
  induction n with
  | zero => intro a le lc i c hai hia _ _ _ _ _; omega
  | succ n' ih =>
    intro a le lc i c hai hia hok hfail hoki hgen hsuc
    by_cases hz : i = a
    · subst hz
      have hstep := attemptStep_success (envs i) t p u m i M hoki c hgen hsuc
      refine ⟨(attemptStep (envs i) t p u m i M).1, ?_, ?_, ?_, ?_, ?_⟩
      · show runLoopAux envs t p u m M (n' + 1) i le lc = _
        simp only [runLoopAux, hstep]
      · rw [hstep]
        simp [updateEventsOf]
      · rw [hstep]
        ext x
        simp [attemptNumsOf]
      · rw [hstep]
        intro q hq
        simpa [genPromptsOf] using hq
      · rw [hstep]
        simp [attemptNumsOf]
    · have hai' : a < i := lt_of_le_of_ne hai (fun h => hz h.symm)
      have hoka := hok a (le_refl a) hai'
      have hfaila := hfail a (le_refl a) hai'
      obtain ⟨stepEvs, lcu, hstep, hupd, hnums, hpr, hhead⟩ :=
        attemptStep_fail_facts (envs a) t p u m a M hoka hfaila
      obtain ⟨evs2, hrec, hupd2, hnums2, hpr2, hhead2⟩ :=
        ih (a + 1) (some (attemptErrOf (envs a))) (lcu.getD lc) i c
          (by omega) (by omega)
          (fun k hk1 hk2 => hok k (by omega) hk2)
          (fun k hk1 hk2 => hfail k (by omega) hk2)
          hoki hgen hsuc
      refine ⟨stepEvs ++ evs2, ?_, ?_, ?_, ?_, ?_⟩
      · simp only [runLoopAux, hstep, hrec]
      · rw [updateEventsOf_append, hupd, hupd2]
        rfl
      · rw [attemptNumsOf_append, List.toFinset_append, hnums, hnums2]
        ext x
        simp only [Finset.mem_union, Finset.mem_singleton, Finset.mem_Icc]
        omega
      · intro q hq
        rw [genPromptsOf_append] at hq
        rcases List.mem_append.mp hq with h | h
        · exact hpr q h
        · exact hpr2 q h
      · rw [attemptNumsOf_append]
        rcases hl : attemptNumsOf stepEvs with _ | ⟨y, ys⟩
        · rw [hl] at hhead
          exact absurd hhead (by simp)
        · rw [hl] at hhead
          simpa using hhead

lemma applyTaskEvents_eq (evs : List Event) : ∀ (row : TaskRow),
    applyTaskEvents row evs =
      (updateEventsOf evs).foldl (fun r sd => updateTaskStatusSQL r sd.1 sd.2 0) row := by
  induction evs with
  | nil => intro row; rfl
  | cons e t ih =>
      intro row
      cases e <;> simp [applyTaskEvents, updateEventsOf, List.foldl_cons] <;>
        exact ih _

lemma updateTaskStatusSQL_processing (row : TaskRow) :
    updateTaskStatusSQL row "processing" {} 0 =
      { row with status := "processing", updated_at := 0 } := by
  simp [updateTaskStatusSQL, buildUpdates, updGenCodeSeg, updExecResultSeg,
    updErrMsgSeg, updShotsSeg, updExecTimeSeg, updAttemptCountSeg,
    updCompletedAtSeg, applyColUpdate]

lemma updateTaskStatusSQL_completed (row : TaskRow) (c : String) (hc : c ≠ "")
    (r : ExecResult) (i : Nat) (ht : r.execution_time ≠ 0) :
    updateTaskStatusSQL row "completed"
      { generatedCode := some c, executionResult := some (.jexec r),
        executionTime := some r.execution_time, attemptCount := some i } 0 =
      { row with
        status := "completed"
        updated_at := 0
        generated_code := some c
        execution_result := some (serializeJVal (.jexec r))
        execution_time_ms := some (r.execution_time * 1000)
        attempt_count := some i
        completed_at := some 0 } := by
  simp [updateTaskStatusSQL, buildUpdates, updGenCodeSeg, updExecResultSeg,
    updErrMsgSeg, updShotsSeg, updExecTimeSeg, updAttemptCountSeg,
    updCompletedAtSeg, applyColUpdate, hc, ht, JVal.truthy]

/-- All persistence operations of a run succeed: the initial and
exhaustion task-status updates and every database call of every loop
iteration. -/
def AllPersistOk (renv : RunEnv) : Prop :=
  renv.initialUpdateErr = none ∧ renv.exhaustUpdateErr = none ∧
  ∀ k, (renv.envs k).persistOk

/-- C1: when every persistence write succeeds and attempt i is the
first whose execution reports success, the run returns .completed i,
the task row is set to status completed with the generated code, the
serialized execution result, attempt count i and the execution time
persisted, and no attempt record with a number greater than i is
written in the run. -/
theorem c1_success_path (renv : RunEnv) (jd : JobData) (row : TaskRow)
    (i : Nat) (c : String)
    (hok : AllPersistOk renv)
    (h1 : 1 ≤ i) (hM : i ≤ jd.maxAttempts)
    (hprev : ∀ k, 1 ≤ k → k < i → ¬ (renv.envs k).succeeds)
    (hgen : (renv.envs i).gen = .ok c)
    (hc : c ≠ "")
    (hsuc : (renv.envs i).exec.success = true)
    (ht : (renv.envs i).exec.execution_time ≠ 0) :
    (processAutomationJob renv jd).2 = .completed i ∧
    (applyTaskEvents row (processAutomationJob renv jd).1).status = "completed" ∧
    (applyTaskEvents row (processAutomationJob renv jd).1).generated_code = some c ∧
    (applyTaskEvents row (processAutomationJob renv jd).1).execution_result =
      some (serializeJVal (.jexec (renv.envs i).exec)) ∧
    (applyTaskEvents row (processAutomationJob renv jd).1).attempt_count = some i ∧
    (applyTaskEvents row (processAutomationJob renv jd).1).execution_time_ms =
      some ((renv.envs i).exec.execution_time * 1000) ∧
    (∀ x ∈ attemptNumsOf (processAutomationJob renv jd).1, x ≤ i) := by
  obtain ⟨hi0, he0, hpok⟩ := hok
  obtain ⟨evs, hrun, hupd, hnumsIcc, hpr, hhead⟩ :=
    runLoopAux_success renv.envs jd.taskId jd.prompt jd.websiteUrl jd.model
      jd.maxAttempts jd.maxAttempts 1 none "" i c h1 (by omega)
      (fun k _ _ => hpok k) hprev (hpok i) hgen hsuc
  have hP : processAutomationJob renv jd =
      ([Event.updateTaskEv "processing" {}] ++ evs, .completed i) := by
    simp only [processAutomationJob, hi0, hrun]
  rw [hP]
  have htask : applyTaskEvents row ([Event.updateTaskEv "processing" {}] ++ evs) =
      { row with
        status := "completed"
        updated_at := 0
        generated_code := some c
        execution_result := some (serializeJVal (.jexec (renv.envs i).exec))
        execution_time_ms := some ((renv.envs i).exec.execution_time * 1000)
        attempt_count := some i
        completed_at := some 0 } := by
    rw [applyTaskEvents_append]
    have h1' : applyTaskEvents row [Event.updateTaskEv "processing" {}] =
        { row with status := "processing", updated_at := 0 } := by
      simp [applyTaskEvents, updateTaskStatusSQL_processing]
    rw [h1', applyTaskEvents_eq, hupd]
    simp only [List.foldl_cons, List.foldl_nil]
    rw [updateTaskStatusSQL_completed _ c hc _ i ht]
  refine ⟨rfl, ?_, ?_, ?_, ?_, ?_, ?_⟩
  · rw [htask]
  · rw [htask]
  · rw [htask]
  · rw [htask]
  · rw [htask]
  · intro x hx
    rw [attemptNumsOf_append] at hx
    have hx2 : x ∈ attemptNumsOf evs := by
      simpa [attemptNumsOf] using hx
    have := List.mem_toFinset.mpr hx2
    rw [hnumsIcc] at this
    exact (Finset.mem_Icc.mp this).2

/-- Sample task row used by concrete witnesses. -/
def sampleRow : TaskRow :=
  { task_id := "T", prompt := "p", website_url := "u", status := "pending",
    generated_code := none, execution_result := none, error_message := none,
    screenshots := none, execution_time_ms := none, attempt_count := none,
    max_attempts := 3, created_at := 0, updated_at := 0, completed_at := none }

/-- Run environment in which every attempt generates code CODE and
executes successfully, with all persistence writes succeeding. -/
def c1Renv : RunEnv :=
  { envs := fun _ => { gen := .ok "CODE", exec := { success := true, execution_time := 2 } } }

def c1Jd : JobData := { taskId := "T", prompt := "p", websiteUrl := some "u" }

/-- Witness for C1: success on attempt 1 of 3. -/
theorem c1_success_path_witness :
    AllPersistOk c1Renv ∧ 1 ≤ 1 ∧ 1 ≤ c1Jd.maxAttempts ∧
    (c1Renv.envs 1).gen = .ok "CODE" ∧ "CODE" ≠ "" ∧
    (c1Renv.envs 1).exec.success = true ∧
    (c1Renv.envs 1).exec.execution_time ≠ 0 ∧
    ((processAutomationJob c1Renv c1Jd).2 = .completed 1 ∧
     (applyTaskEvents sampleRow (processAutomationJob c1Renv c1Jd).1).status = "completed" ∧
     (applyTaskEvents sampleRow (processAutomationJob c1Renv c1Jd).1).generated_code = some "CODE" ∧
     (applyTaskEvents sampleRow (processAutomationJob c1Renv c1Jd).1).execution_result =
       some (serializeJVal (.jexec (c1Renv.envs 1).exec)) ∧
     (applyTaskEvents sampleRow (processAutomationJob c1Renv c1Jd).1).attempt_count = some 1 ∧
     (applyTaskEvents sampleRow (processAutomationJob c1Renv c1Jd).1).execution_time_ms =
       some ((c1Renv.envs 1).exec.execution_time * 1000) ∧
     (∀ x ∈ attemptNumsOf (processAutomationJob c1Renv c1Jd).1, x ≤ 1)) :=
  ⟨⟨rfl, rfl, fun _ => ⟨rfl, rfl, rfl, rfl, rfl⟩⟩, le_refl 1, by decide, rfl,
   by decide, rfl, by decide,
   c1_success_path c1Renv c1Jd sampleRow 1 "CODE"
     ⟨rfl, rfl, fun _ => ⟨rfl, rfl, rfl, rfl, rfl⟩⟩
     (le_refl 1) (by decide)
     (fun k hk1 hk2 => (Nat.not_lt.mpr hk1 hk2).elim)
     rfl (by decide) rfl (by decide)⟩

/-- Run environment in which every attempt generates code CODE and the
execution fails with error boom, while every persistence write
succeeds. -/
def c2Renv : RunEnv :=
  { envs := fun _ =>
      { gen := .ok "CODE", exec := { success := false, error := some "boom" } } }

def c2Jd : JobData := { taskId := "T", prompt := "p", websiteUrl := some "u" }

/-- C2 at a failing input: after maxAttempts = 3 attempts all failing
with error boom, the task is set to awaiting_chat with the error of
attempt 3 and attempt count 3 persisted; but although the orchestrator
passes lastCode = CODE and chatEnabled = true to updateTaskStatus, that
function has no branch for either key, so the task row keeps
generated_code unchanged (none) and nothing records chat enablement —
contradicting the claim that the last generated code is persisted and
the task is marked chat-enabled. -/
theorem c2_exhaustion_divergence :
    (processAutomationJob c2Renv c2Jd).2 = .awaitingChat ∧
    (applyTaskEvents sampleRow (processAutomationJob c2Renv c2Jd).1).status = "awaiting_chat" ∧
    (applyTaskEvents sampleRow (processAutomationJob c2Renv c2Jd).1).error_message = some "boom" ∧
    (applyTaskEvents sampleRow (processAutomationJob c2Renv c2Jd).1).attempt_count = some 3 ∧
    (applyTaskEvents sampleRow (processAutomationJob c2Renv c2Jd).1).generated_code = none ∧
    updateEventsOf (processAutomationJob c2Renv c2Jd).1 =
      [("processing", {}),
       ("awaiting_chat",
        { errorMessage := some "boom", attemptCount := some 3,
          lastCode := some "CODE", chatEnabled := some true })] :=
  ⟨rfl, rfl, rfl, rfl, rfl, rfl⟩

lemma updateTaskStatusSQL_failed (row : TaskRow) (e : String) :
    updateTaskStatusSQL row "failed" { errorMessage := some e } 0 =
      (if e = "" then { row with status := "failed", updated_at := 0 }
       else { row with status := "failed", updated_at := 0, error_message := some e }) := by
  by_cases he : e = "" <;>
    simp [updateTaskStatusSQL, buildUpdates, updGenCodeSeg, updExecResultSeg,
      updErrMsgSeg, updShotsSeg, updExecTimeSeg, updAttemptCountSeg,
      updCompletedAtSeg, applyColUpdate, he]

set_option maxHeartbeats 3200000 in
lemma attemptStep_facts (env : AttemptEnv) (t p : String) (u : Option String) (m : String) (i M : Nat) :
    (∀ x ∈ attemptNumsOf (attemptStep env t p u m i M).1, x = i) ∧
    (attemptNumsOf (attemptStep env t p u m i M).1 = [] →
      ∃ e, (attemptStep env t p u m i M).2 = .aborted e) ∧
    (∀ e lcu, (attemptStep env t p u m i M).2 = .failure e lcu →
      updateEventsOf (attemptStep env t p u m i M).1 = []) ∧
    (∀ e, (attemptStep env t p u m i M).2 = .aborted e →
      updateEventsOf (attemptStep env t p u m i M).1 = []) ∧
    (∀ q ∈ genPromptsOf (attemptStep env t p u m i M).1, q = p) := by
  rcases env with ⟨gen, ⟨suc, err, shots, etime⟩, cpe, cee, cfe, uce, cce⟩
  rcases cpe with _ | e1 <;> rcases cce with _ | e7 <;> rcases gen with e2 | code <;>
    rcases cee with _ | e3 <;> rcases cfe with _ | e4 <;> rcases uce with _ | e5 <;>
    rcases suc with _ | _ <;>
    simp only [attemptStep, catchBlock] <;>
    (try split_ifs) <;>
    simp_all [attemptNumsOf, updateEventsOf, genPromptsOf, List.filterMap_append]

lemma runLoopAux_facts (envs : Nat → AttemptEnv) (t p : String) (u : Option String) (m : String) (M : Nat) :
    ∀ (n a : Nat) (le : Option String) (lc : String),
      (∀ x ∈ attemptNumsOf (runLoopAux envs t p u m M n a le lc).1, a ≤ x ∧ x < a + n) ∧
      ((attemptNumsOf (runLoopAux envs t p u m M n a le lc).1).head? = none ∨
       (attemptNumsOf (runLoopAux envs t p u m M n a le lc).1).head? = some a) ∧
      (∀ e, (runLoopAux envs t p u m M n a le lc).2 = .aborted e →
        updateEventsOf (runLoopAux envs t p u m M n a le lc).1 = []) ∧
      (∀ le' lc', (runLoopAux envs t p u m M n a le lc).2 = .exhausted le' lc' →
        updateEventsOf (runLoopAux envs t p u m M n a le lc).1 = []) ∧
      (∀ q ∈ genPromptsOf (runLoopAux envs t p u m M n a le lc).1, q = p) := by
  intro n
  induction n with
  | zero =>
      intro a le lc
      refine ⟨?_, ?_, ?_, ?_, ?_⟩ <;>
        simp [runLoopAux, attemptNumsOf, updateEventsOf, genPromptsOf]
  | succ n' ih =>
    intro a le lc
    obtain ⟨hs1, hs2, hs3, hs4, hs5⟩ := attemptStep_facts (envs a) t p u m a M
    rcases hstep : attemptStep (envs a) t p u m a M with ⟨stepEvs, o⟩
    rw [hstep] at hs1 hs2 hs3 hs4 hs5
    simp only at hs1 hs2 hs3 hs4 hs5
    have hstepNe : ∀ e lcu, o = .failure e lcu → attemptNumsOf stepEvs ≠ [] := by
      intro e lcu ho hnil
      obtain ⟨e2, he2⟩ := hs2 hnil
      rw [ho] at he2
      exact absurd he2 (by simp)
    cases o with
    | success c r =>
        have hres : runLoopAux envs t p u m M (n' + 1) a le lc = (stepEvs, .success a c r) := by
          simp only [runLoopAux, hstep]
        rw [hres]
        refine ⟨fun x hx => ⟨le_of_eq (hs1 x hx).symm, by rw [hs1 x hx]; omega⟩,
          ?_, ?_, ?_, hs5⟩
        · rcases hl : attemptNumsOf stepEvs with _ | ⟨y, ys⟩
          · exact Or.inl (by simp)
          · have : y = a := hs1 y (by rw [hl]; exact List.mem_cons_self y ys)
            exact Or.inr (by simp [this])
        · intro e he
          exact absurd he (by simp)
        · intro le' lc' he
          exact absurd he (by simp)
    | aborted e0 =>
        have hres : runLoopAux envs t p u m M (n' + 1) a le lc = (stepEvs, .aborted e0) := by
          simp only [runLoopAux, hstep]
        rw [hres]
        refine ⟨fun x hx => ⟨le_of_eq (hs1 x hx).symm, by rw [hs1 x hx]; omega⟩,
          ?_, ?_, ?_, hs5⟩
        · rcases hl : attemptNumsOf stepEvs with _ | ⟨y, ys⟩
          · exact Or.inl (by simp)
          · have : y = a := hs1 y (by rw [hl]; exact List.mem_cons_self y ys)
            exact Or.inr (by simp [this])
        · intro e he
          exact hs4 e0 rfl
        · intro le' lc' he
          exact absurd he (by simp)
    | failure e0 lcu =>
        obtain ⟨ih1, ih2, ih3, ih4, ih5⟩ := ih (a + 1) (some e0) (lcu.getD lc)
        rcases hrec : runLoopAux envs t p u m M n' (a + 1) (some e0) (lcu.getD lc)
          with ⟨evs2, res2⟩
        rw [hrec] at ih1 ih2 ih3 ih4 ih5
        simp only at ih1 ih2 ih3 ih4 ih5
        have hres : runLoopAux envs t p u m M (n' + 1) a le lc =
            (stepEvs ++ evs2, res2) := by
          simp only [runLoopAux, hstep, hrec]
        rw [hres]
        have hupd0 := hs3 e0 lcu rfl
        refine ⟨?_, ?_, ?_, ?_, ?_⟩
        · intro x hx
          rw [attemptNumsOf_append] at hx
          rcases List.mem_append.mp hx with h | h
          · have := hs1 x h
            omega
          · have := ih1 x h
            omega
        · rw [attemptNumsOf_append]
          rcases hl : attemptNumsOf stepEvs with _ | ⟨y, ys⟩
          · exact absurd hl (hstepNe e0 lcu rfl)
          · have : y = a := hs1 y (by rw [hl]; exact List.mem_cons_self y ys)
            exact Or.inr (by simp [this])
        · intro e he
          rw [updateEventsOf_append, hupd0, ih3 e he]
          rfl
        · intro le' lc' he
          rw [updateEventsOf_append, hupd0, ih4 le' lc' he]
          rfl
        · intro q hq
          rw [genPromptsOf_append] at hq
          rcases List.mem_append.mp hq with h | h
          · exact hs5 q h
          · exact ih5 q h

lemma genPromptsOf_update_nil (s : String) (d : UpdateData) :
    genPromptsOf [Event.updateTaskEv s d] = [] := rfl

lemma attemptNumsOf_update_nil (s : String) (d : UpdateData) :
    attemptNumsOf [Event.updateTaskEv s d] = [] := rfl

lemma processAutomationJob_trace_facts (renv : RunEnv) (jd : JobData) :
    (∀ q ∈ genPromptsOf (processAutomationJob renv jd).1, q = jd.prompt) ∧
    ((attemptNumsOf (processAutomationJob renv jd).1).head? = none ∨
     (attemptNumsOf (processAutomationJob renv jd).1).head? = some 1) := by
  obtain ⟨hl1, hl2, hl3, hl4, hl5⟩ :=
    runLoopAux_facts renv.envs jd.taskId jd.prompt jd.websiteUrl jd.model
      jd.maxAttempts jd.maxAttempts 1 none ""
  rcases hloop : runLoopAux renv.envs jd.taskId jd.prompt jd.websiteUrl jd.model
      jd.maxAttempts jd.maxAttempts 1 none "" with ⟨evs, res⟩
  rw [hloop] at hl1 hl2 hl3 hl4 hl5
  simp only at hl1 hl2 hl3 hl4 hl5
  have hcatch : ∀ e pre,
      genPromptsOf pre = genPromptsOf evs →
      attemptNumsOf pre = attemptNumsOf evs →
      (∀ q ∈ genPromptsOf (outerCatch renv e pre).1, q = jd.prompt) ∧
      ((attemptNumsOf (outerCatch renv e pre).1).head? = none ∨
       (attemptNumsOf (outerCatch renv e pre).1).head? = some 1) := by
    intro e pre hg hn
    rcases hf : renv.failedUpdateErr with _ | e2 <;>
      simp only [outerCatch, hf] <;>
      constructor <;>
      simp only [genPromptsOf_append, attemptNumsOf_append,
        genPromptsOf_update_nil, attemptNumsOf_update_nil, List.append_nil, hg, hn]
    · exact hl5
    · exact hl2
    · exact hl5
    · exact hl2
  rcases hinit : renv.initialUpdateErr with _ | e0
  · cases res with
    | success a c r =>
        have hres : processAutomationJob renv jd =
            ([Event.updateTaskEv "processing" {}] ++ evs, .completed a) := by
          simp only [processAutomationJob, hinit, hloop]
        rw [hres]
        constructor
        · intro q hq
          rw [genPromptsOf_append, genPromptsOf_update_nil] at hq
          exact hl5 q (by simpa using hq)
        · simpa [attemptNumsOf_append, attemptNumsOf_update_nil] using hl2
    | aborted e =>
        have hres : processAutomationJob renv jd =
            outerCatch renv e ([Event.updateTaskEv "processing" {}] ++ evs) := by
          simp only [processAutomationJob, hinit, hloop]
        rw [hres]
        exact hcatch e _
          (by rw [genPromptsOf_append, genPromptsOf_update_nil]; rfl)
          (by rw [attemptNumsOf_append, attemptNumsOf_update_nil]; rfl)
    | exhausted le' lc' =>
        rcases hex : renv.exhaustUpdateErr with _ | e1
        · have hres : (processAutomationJob renv jd).1 =
              [Event.updateTaskEv "processing" {}] ++ evs ++
                [Event.updateTaskEv "awaiting_chat"
                  { errorMessage := some (jsOr le' "All attempts failed")
                    attemptCount := some jd.maxAttempts
                    lastCode := some lc'
                    chatEnabled := some true }] := by
            simp only [processAutomationJob, hinit, hloop, hex]
          rw [hres]
          constructor
          · intro q hq
            simp only [genPromptsOf_append, genPromptsOf_update_nil,
              List.append_nil] at hq
            exact hl5 q (by simpa using hq)
          · simpa [attemptNumsOf, List.filterMap_append, List.filterMap_cons] using hl2
        · have hres : processAutomationJob renv jd =
              outerCatch renv e1 ([Event.updateTaskEv "processing" {}] ++ evs) := by
            simp only [processAutomationJob, hinit, hloop, hex]
          rw [hres]
          exact hcatch e1 _
            (by rw [genPromptsOf_append, genPromptsOf_update_nil]; rfl)
            (by rw [attemptNumsOf_append, attemptNumsOf_update_nil]; rfl)
  · have hres : processAutomationJob renv jd = outerCatch renv e0 [] := by
      simp only [processAutomationJob, hinit]
    rw [hres]
    rcases hf : renv.failedUpdateErr with _ | e2 <;>
      simp [outerCatch, hf, genPromptsOf, attemptNumsOf]

/-- C6: submitting a continuation with a nonempty refined prompt on a
task in awaiting_chat sets the task status back to processing and
enqueues an automation job for the same task whose prompt is the
refined prompt and whose maxAttempts is 3 (its websiteUrl is the
undefined task.websiteUrl access, modelled as none, since the raw row
only has the website_url column); processing that job runs the same
orchestration function, every generation call of the new run uses the
refined prompt, and the first attempt record the run writes (if it
writes any) carries attempt number 1. -/
theorem c6_continuation (task : TaskRow) (refinedPrompt : String)
    (mo : Option String) (renv : RunEnv)
    (hstatus : task.status = "awaiting_chat") (hp : refinedPrompt ≠ "") :
    ∃ jd, continueEndpoint task refinedPrompt mo =
        ([Event.updateTaskEv "processing" {}], some jd) ∧
      (applyTaskEvents task (continueEndpoint task refinedPrompt mo).1).status =
        "processing" ∧
      jd.taskId = task.task_id ∧ jd.prompt = refinedPrompt ∧
      jd.websiteUrl = task.websiteUrlProp ∧ jd.maxAttempts = 3 ∧
      (∀ q ∈ genPromptsOf (processAutomationJob renv jd).1, q = refinedPrompt) ∧
      ((attemptNumsOf (processAutomationJob renv jd).1).head? = none ∨
       (attemptNumsOf (processAutomationJob renv jd).1).head? = some 1) := by
  refine ⟨{ taskId := task.task_id, prompt := refinedPrompt,
            websiteUrl := task.websiteUrlProp, maxAttempts := 3,
            model := jsOr mo (jsOr none "gemini") },
          ?_, ?_, rfl, rfl, rfl, rfl, ?_, ?_⟩
  · simp [continueEndpoint, hp]
  · simp [continueEndpoint, hp, applyTaskEvents, updateTaskStatusSQL_processing]
  · exact (processAutomationJob_trace_facts renv _).1
  · exact (processAutomationJob_trace_facts renv _).2

def c6Task : TaskRow := { sampleRow with status := "awaiting_chat" }

/-- Witness for C6 at a concrete awaiting_chat task. -/
theorem c6_continuation_witness :
    c6Task.status = "awaiting_chat" ∧ "refined" ≠ "" ∧
    (∃ jd, continueEndpoint c6Task "refined" none =
        ([Event.updateTaskEv "processing" {}], some jd) ∧
      (applyTaskEvents c6Task (continueEndpoint c6Task "refined" none).1).status =
        "processing" ∧
      jd.taskId = c6Task.task_id ∧ jd.prompt = "refined" ∧
      jd.websiteUrl = c6Task.websiteUrlProp ∧ jd.maxAttempts = 3 ∧
      (∀ q ∈ genPromptsOf (processAutomationJob c1Renv jd).1, q = "refined") ∧
      ((attemptNumsOf (processAutomationJob c1Renv jd).1).head? = none ∨
       (attemptNumsOf (processAutomationJob c1Renv jd).1).head? = some 1)) :=
  ⟨rfl, by decide, c6_continuation c6Task "refined" none c1Renv rfl (by decide)⟩

/-- C7 (amended): a persistence failure that escapes the per-attempt
handler ends the run in status failed with the error recorded and no
events after the failure handler. Concretely: if the initial update to
processing throws, the whole trace is the single failed update and no
attempt record is written; if the retry loop aborts (which happens
exactly when the failure-recording write inside the per-attempt catch
throws), the trace ends immediately with the failed update; and if the
post-loop exhaustion update to awaiting_chat throws, the run likewise
ends with the failed update and nothing after it. Persistence failures
inside the try block of an attempt are instead caught at the attempt
boundary and retried (see the counterexample). -/
theorem c7_persistence_failures (renv : RunEnv) (jd : JobData) (row : TaskRow)
    (e : String) (hf : renv.failedUpdateErr = none) :
    (renv.initialUpdateErr = some e →
      processAutomationJob renv jd =
        ([Event.updateTaskEv "failed" { errorMessage := some e }], .runFailed e) ∧
      attemptNumsOf (processAutomationJob renv jd).1 = [] ∧
      (applyTaskEvents row (processAutomationJob renv jd).1).status = "failed" ∧
      (e ≠ "" →
        (applyTaskEvents row (processAutomationJob renv jd).1).error_message = some e)) ∧
    (∀ evs, renv.initialUpdateErr = none →
      runLoopAux renv.envs jd.taskId jd.prompt jd.websiteUrl jd.model
        jd.maxAttempts jd.maxAttempts 1 none "" = (evs, .aborted e) →
      processAutomationJob renv jd =
        ([Event.updateTaskEv "processing" {}] ++ evs ++
          [Event.updateTaskEv "failed" { errorMessage := some e }], .runFailed e) ∧
      (applyTaskEvents row (processAutomationJob renv jd).1).status = "failed" ∧
      (e ≠ "" →
        (applyTaskEvents row (processAutomationJob renv jd).1).error_message = some e)) ∧
    (∀ evs le' lc', renv.initialUpdateErr = none →
      runLoopAux renv.envs jd.taskId jd.prompt jd.websiteUrl jd.model
        jd.maxAttempts jd.maxAttempts 1 none "" = (evs, .exhausted le' lc') →
      renv.exhaustUpdateErr = some e →
      processAutomationJob renv jd =
        ([Event.updateTaskEv "processing" {}] ++ evs ++
          [Event.updateTaskEv "failed" { errorMessage := some e }], .runFailed e) ∧
      (applyTaskEvents row (processAutomationJob renv jd).1).status = "failed" ∧
      (e ≠ "" →
        (applyTaskEvents row (processAutomationJob renv jd).1).error_message = some e)) := by
  refine ⟨?_, ?_, ?_⟩
  · intro hi
    have hres : processAutomationJob renv jd =
        ([Event.updateTaskEv "failed" { errorMessage := some e }], .runFailed e) := by
      simp [processAutomationJob, hi, outerCatch, hf]
    refine ⟨hres, by rw [hres]; rfl, ?_, ?_⟩
    · rw [hres]
      simp only [applyTaskEvents, List.foldl_cons, List.foldl_nil]
      rw [updateTaskStatusSQL_failed]
      split_ifs <;> rfl
    · intro he
      rw [hres]
      simp only [applyTaskEvents, List.foldl_cons, List.foldl_nil]
      rw [updateTaskStatusSQL_failed, if_neg he]
  · intro evs hi hrec
    have hres : processAutomationJob renv jd =
        ([Event.updateTaskEv "processing" {}] ++ evs ++
          [Event.updateTaskEv "failed" { errorMessage := some e }], .runFailed e) := by
      simp [processAutomationJob, hi, hrec, outerCatch, hf]
    have hupd : updateEventsOf evs = [] := by
      have h3 := (runLoopAux_facts renv.envs jd.taskId jd.prompt jd.websiteUrl
        jd.model jd.maxAttempts jd.maxAttempts 1 none "").2.2.1
      rw [hrec] at h3
      exact h3 e rfl
    have htask : applyTaskEvents row (processAutomationJob renv jd).1 =
        updateTaskStatusSQL { row with status := "processing", updated_at := 0 }
          "failed" { errorMessage := some e } 0 := by
      rw [hres]
      rw [applyTaskEvents_append, applyTaskEvents_append]
      have ha : applyTaskEvents row [Event.updateTaskEv "processing" {}] =
          { row with status := "processing", updated_at := 0 } := by
        simp [applyTaskEvents, updateTaskStatusSQL_processing]
      rw [ha, applyTaskEvents_eq evs, hupd]
      simp [applyTaskEvents]
    refine ⟨hres, ?_, ?_⟩
    · rw [htask, updateTaskStatusSQL_failed]
      split_ifs <;> rfl
    · intro he
      rw [htask, updateTaskStatusSQL_failed, if_neg he]
  · intro evs le' lc' hi hrec hex
    have hres : processAutomationJob renv jd =
        ([Event.updateTaskEv "processing" {}] ++ evs ++
          [Event.updateTaskEv "failed" { errorMessage := some e }], .runFailed e) := by
      simp [processAutomationJob, hi, hrec, hex, outerCatch, hf]
    have hupd : updateEventsOf evs = [] := by
      have h4 := (runLoopAux_facts renv.envs jd.taskId jd.prompt jd.websiteUrl
        jd.model jd.maxAttempts jd.maxAttempts 1 none "").2.2.2.1
      rw [hrec] at h4
      exact h4 le' lc' rfl
    have htask : applyTaskEvents row (processAutomationJob renv jd).1 =
        updateTaskStatusSQL { row with status := "processing", updated_at := 0 }
          "failed" { errorMessage := some e } 0 := by
      rw [hres]
      rw [applyTaskEvents_append, applyTaskEvents_append]
      have ha : applyTaskEvents row [Event.updateTaskEv "processing" {}] =
          { row with status := "processing", updated_at := 0 } := by
        simp [applyTaskEvents, updateTaskStatusSQL_processing]
      rw [ha, applyTaskEvents_eq evs, hupd]
      simp [applyTaskEvents]
    refine ⟨hres, ?_, ?_⟩
    · rw [htask, updateTaskStatusSQL_failed]
      split_ifs <;> rfl
    · intro he
      rw [htask, updateTaskStatusSQL_failed, if_neg he]

def c7wRenv : RunEnv :=
  { envs := fun _ => { gen := .ok "X", exec := { success := true } }
    initialUpdateErr := some "db down" }

/-- Run environment whose loop exhausts (every execution fails with
boom) and whose exhaustion status update throws. -/
def c7xRenv : RunEnv :=
  { envs := fun _ =>
      { gen := .ok "CODE", exec := { success := false, error := some "boom" } }
    exhaustUpdateErr := some "exhaust write failed" }

/-- Witness for C7 (amended): a run whose initial status update throws,
and a run whose exhaustion status update throws. -/
theorem c7_persistence_failures_witness :
    c7wRenv.failedUpdateErr = none ∧
    c7wRenv.initialUpdateErr = some "db down" ∧
    (processAutomationJob c7wRenv c2Jd =
      ([Event.updateTaskEv "failed" { errorMessage := some "db down" }], .runFailed "db down") ∧
     attemptNumsOf (processAutomationJob c7wRenv c2Jd).1 = [] ∧
     (applyTaskEvents sampleRow (processAutomationJob c7wRenv c2Jd).1).status = "failed" ∧
     ("db down" ≠ "" →
       (applyTaskEvents sampleRow (processAutomationJob c7wRenv c2Jd).1).error_message =
         some "db down")) ∧
    c7xRenv.failedUpdateErr = none ∧
    c7xRenv.exhaustUpdateErr = some "exhaust write failed" ∧
    (processAutomationJob c7xRenv c2Jd =
      ([Event.updateTaskEv "processing" {}] ++
        (runLoopAux c7xRenv.envs c2Jd.taskId c2Jd.prompt c2Jd.websiteUrl c2Jd.model
          c2Jd.maxAttempts c2Jd.maxAttempts 1 none "").1 ++
        [Event.updateTaskEv "failed" { errorMessage := some "exhaust write failed" }],
       .runFailed "exhaust write failed") ∧
     (applyTaskEvents sampleRow (processAutomationJob c7xRenv c2Jd).1).status = "failed" ∧
     ("exhaust write failed" ≠ "" →
       (applyTaskEvents sampleRow (processAutomationJob c7xRenv c2Jd).1).error_message =
         some "exhaust write failed")) :=
  ⟨rfl, rfl,
   (c7_persistence_failures c7wRenv c2Jd sampleRow "db down" rfl).1 rfl,
   rfl, rfl,
   (c7_persistence_failures c7xRenv c2Jd sampleRow "exhaust write failed" rfl).2.2
     (runLoopAux c7xRenv.envs c2Jd.taskId c2Jd.prompt c2Jd.websiteUrl c2Jd.model
       c2Jd.maxAttempts c2Jd.maxAttempts 1 none "").1
     (some "boom") "CODE" rfl rfl rfl⟩

/-- Run environment for the C7 counterexample: the processing-record
write of attempt 1 throws (a persistence failure), the recovery write
in the catch succeeds, and attempt 2 generates and executes
successfully. -/
def c7Renv : RunEnv :=
  { envs := fun k =>
      if k = 1 then
        { gen := .ok "X", exec := { success := true, execution_time := 1 }
          createProcessingErr := some "db write failed" }
      else
        { gen := .ok "Y", exec := { success := true, execution_time := 1 } } }

/-- Counterexample to C7 as stated: a persistence write (the attempt-1
processing record) fails during the run, yet the task does not
transition to failed — the failure is caught at the attempt boundary,
attempt 2 still executes, and the run completes with status completed. -/
theorem c7_counterexample :
    (c7Renv.envs 1).createProcessingErr = some "db write failed" ∧
    (processAutomationJob c7Renv c2Jd).2 = .completed 2 ∧
    (applyTaskEvents sampleRow (processAutomationJob c7Renv c2Jd).1).status = "completed" ∧
    ¬ (applyTaskEvents sampleRow (processAutomationJob c7Renv c2Jd).1).status = "failed" ∧
    2 ∈ attemptNumsOf (processAutomationJob c7Renv c2Jd).1 :=
  ⟨rfl, rfl, rfl, by decide, by decide⟩

/-- Attempt numbers present in the automation_attempts table for a
given task. -/
def taskAttemptNums (tbl : List AttemptRow) (tid : String) : Finset Nat :=
  ((tbl.filter (fun r => r.task_id == tid)).map (fun r => r.attempt_number)).toFinset

/-- Contiguity invariant: the attempt numbers of a task form an
interval 1..n with no gaps (n = 0 for no records). -/
def ContiguousAttempts (tbl : List AttemptRow) (tid : String) : Prop :=
  ∃ n, taskAttemptNums tbl tid = Finset.Icc 1 n

lemma mem_taskAttemptNums (tbl : List AttemptRow) (tid : String) (x : Nat) :
    x ∈ taskAttemptNums tbl tid ↔
      ∃ r ∈ tbl, r.task_id = tid ∧ r.attempt_number = x := by
  simp only [taskAttemptNums, List.mem_toFinset, List.mem_map, List.mem_filter,
    beq_iff_eq]
  constructor
  · rintro ⟨r, ⟨hr, hid⟩, hnum⟩
    exact ⟨r, hr, hid, hnum⟩
  · rintro ⟨r, hr, hid, hnum⟩
    exact ⟨r, ⟨hr, hid⟩, hnum⟩

lemma taskAttemptNums_createAttempt (tbl : List AttemptRow) (d : AttemptData) :
    taskAttemptNums (createAttemptSQL tbl d) d.taskId =
      insert d.attemptNumber (taskAttemptNums tbl d.taskId) := by
  ext x
  rw [mem_taskAttemptNums, Finset.mem_insert, mem_taskAttemptNums]
  unfold createAttemptSQL
  by_cases h : tbl.any (fun r => sameKey r d) = true
  · rw [if_pos h]
    constructor
    · rintro ⟨r, hr, hid, hnum⟩
      obtain ⟨s, hs, hfs⟩ := List.mem_map.mp hr
      by_cases hk : sameKey s d = true
      · rw [if_pos hk] at hfs
        subst hfs
        left
        simp only [mkAttemptRow] at hnum
        exact hnum.symm
      · rw [if_neg hk] at hfs
        subst hfs
        right
        exact ⟨s, hs, hid, hnum⟩
    · rintro (rfl | ⟨r, hr, hid, hnum⟩)
      · obtain ⟨r0, hr0, hk0⟩ := List.any_eq_true.mp h
        refine ⟨mkAttemptRow d, ?_, ?_, ?_⟩
        · exact List.mem_map.mpr ⟨r0, hr0, by rw [if_pos hk0]⟩
        · simp [mkAttemptRow]
        · simp [mkAttemptRow]
      · by_cases hk : sameKey r d = true
        · have hnum2 : r.attempt_number = d.attemptNumber := by
            simp only [sameKey, Bool.and_eq_true, beq_iff_eq] at hk
            exact hk.2
          refine ⟨mkAttemptRow d, List.mem_map.mpr ⟨r, hr, by rw [if_pos hk]⟩,
            by simp [mkAttemptRow], ?_⟩
          simp only [mkAttemptRow]
          omega
        · exact ⟨r, List.mem_map.mpr ⟨r, hr, by rw [if_neg hk]⟩, hid, hnum⟩
  · rw [if_neg h]
    constructor
    · rintro ⟨r, hr, hid, hnum⟩
      rcases List.mem_append.mp hr with h1 | h1
      · right
        exact ⟨r, h1, hid, hnum⟩
      · left
        rcases List.mem_singleton.mp h1 with rfl
        simpa [mkAttemptRow] using hnum.symm
    · rintro (rfl | ⟨r, hr, hid, hnum⟩)
      · exact ⟨mkAttemptRow d,
          List.mem_append.mpr (Or.inr (List.mem_singleton.mpr rfl)),
          by simp [mkAttemptRow], by simp [mkAttemptRow]⟩
      · exact ⟨r, List.mem_append.mpr (Or.inl hr), hid, hnum⟩

/-- C4: under successful persistence the orchestration loop writes
attempt records whose numbers form exactly the gap-free interval 1..k,
where k is the attempt count the run reached (the successful attempt,
or maxAttempts on exhaustion); and the chat endpoint, which upserts an
attempt record numbered (task.attempts or 0) + 1 = 1, preserves the
contiguity invariant of the attempts table. -/
theorem c4_contiguous_attempts (renv : RunEnv) (jd : JobData)
    (tbl : List AttemptRow) (task : TaskRow) (message : String)
    (chatGen : ChatContext → Except String String)
    (hok : AllPersistOk renv) (hM : 1 ≤ jd.maxAttempts)
    (hcont : ContiguousAttempts tbl task.task_id) :
    (∃ k, 1 ≤ k ∧ k ≤ jd.maxAttempts ∧
      (attemptNumsOf (processAutomationJob renv jd).1).toFinset = Finset.Icc 1 k ∧
      ((processAutomationJob renv jd).2 = .completed k ∨
       ((processAutomationJob renv jd).2 = .awaitingChat ∧ k = jd.maxAttempts))) ∧
    ContiguousAttempts
      (applyAttemptEvents tbl (chatEndpoint task message chatGen).1)
      task.task_id := by
  obtain ⟨hi0, he0, hpok⟩ := hok
  constructor
  · by_cases hP : ∃ i, 1 ≤ i ∧ i ≤ jd.maxAttempts ∧ (renv.envs i).succeeds
    · haveI := Classical.decPred
        (fun i => 1 ≤ i ∧ i ≤ jd.maxAttempts ∧ (renv.envs i).succeeds)
      obtain ⟨h1, hM2, hsuc⟩ := Nat.find_spec hP
      have hmin := fun k => Nat.find_min hP (m := k)
      set i0 := Nat.find hP with hi0def
      obtain ⟨c, hc⟩ := hsuc.1
      obtain ⟨evs, hrun, hupd, hnumsIcc, hpr, hhead⟩ :=
        runLoopAux_success renv.envs jd.taskId jd.prompt jd.websiteUrl jd.model
          jd.maxAttempts jd.maxAttempts 1 none "" i0 c h1 (by omega)
          (fun k _ _ => hpok k)
          (fun k hk1 hk2 => by
            intro hks
            exact hmin k hk2 ⟨hk1, by omega, hks⟩)
          (hpok i0) hc hsuc.2
      have hres : processAutomationJob renv jd =
          ([Event.updateTaskEv "processing" {}] ++ evs, .completed i0) := by
        simp only [processAutomationJob, hi0, hrun]
      refine ⟨i0, h1, hM2, ?_, Or.inl (by rw [hres])⟩
      rw [hres]
      simpa [attemptNumsOf_append, attemptNumsOf_update_nil] using hnumsIcc
    · have hfail : ∀ k, 1 ≤ k → k < 1 + jd.maxAttempts → ¬ (renv.envs k).succeeds := by
        intro k hk1 hk2 hks
        exact hP ⟨k, hk1, by omega, hks⟩
      obtain ⟨evs, lcF, hrun, hupd, hnumsIco, hpr, hhead⟩ :=
        runLoopAux_all_fail renv.envs jd.taskId jd.prompt jd.websiteUrl jd.model
          jd.maxAttempts jd.maxAttempts 1 none "" (by omega)
          (fun k _ _ => hpok k) hfail
      have hres : processAutomationJob renv jd =
          ([Event.updateTaskEv "processing" {}] ++ evs ++
            [Event.updateTaskEv "awaiting_chat"
              { errorMessage :=
                  some (jsOr (some (attemptErrOf (renv.envs (1 + jd.maxAttempts - 1))))
                    "All attempts failed")
                attemptCount := some jd.maxAttempts
                lastCode := some lcF
                chatEnabled := some true }], .awaitingChat) := by
        simp only [processAutomationJob, hi0, hrun, he0]
      refine ⟨jd.maxAttempts, hM, le_refl _, ?_, Or.inr ⟨by rw [hres], rfl⟩⟩
      rw [hres]
      have : (attemptNumsOf
          ([Event.updateTaskEv "processing" {}] ++ evs ++
            [Event.updateTaskEv "awaiting_chat"
              { errorMessage :=
                  some (jsOr (some (attemptErrOf (renv.envs (1 + jd.maxAttempts - 1))))
                    "All attempts failed")
                attemptCount := some jd.maxAttempts
                lastCode := some lcF
                chatEnabled := some true }])).toFinset =
          (attemptNumsOf evs).toFinset := by
        simp [attemptNumsOf, List.filterMap_append]
      rw [this, hnumsIco]
      ext x
      simp only [Finset.mem_Ico, Finset.mem_Icc]
      omega
  · by_cases hm : message = ""
    · simpa [chatEndpoint, hm, applyAttemptEvents] using hcont
    · rcases hg : chatGen
        { prompt := task.prompt
          websiteUrl := task.websiteUrlProp
          attempts := task.attemptsProp.getD 0
          lastError := jsOr task.resultProp "Unknown error"
          lastCode := jsOr task.resultProp "" } with e | response
      · have hres : (chatEndpoint task message chatGen).1 = [] := by
          simp [chatEndpoint, hm, hg]
        rw [hres]
        simpa [applyAttemptEvents] using hcont
      · have hres : (chatEndpoint task message chatGen).1 =
            [Event.createAttemptEv (chatAttemptData task message response)] := by
          simp [chatEndpoint, hm, hg]
        rw [hres]
        obtain ⟨n, hn⟩ := hcont
        refine ⟨max n 1, ?_⟩
        have happ : applyAttemptEvents tbl
            [Event.createAttemptEv (chatAttemptData task message response)] =
            createAttemptSQL tbl (chatAttemptData task message response) := by
          simp [applyAttemptEvents]
        rw [happ]
        have hid : (chatAttemptData task message response).taskId = task.task_id := rfl
        have hnum : (chatAttemptData task message response).attemptNumber = 1 := rfl
        rw [← hid, taskAttemptNums_createAttempt, hid, hnum, hn]
        ext x
        simp only [Finset.mem_insert, Finset.mem_Icc]
        omega

/-- Witness for C4: a run that succeeds at attempt 1, and a chat
interaction on a table holding attempts 1 and 2. -/
theorem c4_contiguous_attempts_witness :
    AllPersistOk c1Renv ∧ 1 ≤ c1Jd.maxAttempts ∧
    ContiguousAttempts c5Tbl c6Task.task_id ∧
    ((∃ k, 1 ≤ k ∧ k ≤ c1Jd.maxAttempts ∧
      (attemptNumsOf (processAutomationJob c1Renv c1Jd).1).toFinset = Finset.Icc 1 k ∧
      ((processAutomationJob c1Renv c1Jd).2 = .completed k ∨
       ((processAutomationJob c1Renv c1Jd).2 = .awaitingChat ∧ k = c1Jd.maxAttempts))) ∧
     ContiguousAttempts
       (applyAttemptEvents c5Tbl (chatEndpoint c6Task "hi" (fun _ => .ok "advice")).1)
       c6Task.task_id) :=
  ⟨⟨rfl, rfl, fun _ => ⟨rfl, rfl, rfl, rfl, rfl⟩⟩, by decide, ⟨2, by decide⟩,
   c4_contiguous_attempts c1Renv c1Jd c5Tbl c6Task "hi" (fun _ => .ok "advice")
     ⟨rfl, rfl, fun _ => ⟨rfl, rfl, rfl, rfl, rfl⟩⟩ (by decide) ⟨2, by decide⟩⟩

/-- C8 (amended): the chat endpoint never touches the task row, never
issues an execution or generation call, and never updates the task
status; but when it answers with a reply it does write to the attempts
table — it upserts one attempt record (status chat_interaction, number
(task.attempts or 0) + 1 = 1 since the raw task row has no attempts
property) recording the interaction; when the request is rejected or
the model call throws, nothing at all is written. -/
theorem c8_chat_frame (task row : TaskRow) (tbl : List AttemptRow)
    (message : String) (chatGen : ChatContext → Except String String) :
    applyTaskEvents row (chatEndpoint task message chatGen).1 = row ∧
    execCallsOf (chatEndpoint task message chatGen).1 = [] ∧
    genPromptsOf (chatEndpoint task message chatGen).1 = [] ∧
    updateEventsOf (chatEndpoint task message chatGen).1 = [] ∧
    (∀ response, (chatEndpoint task message chatGen).2 = .reply response →
      applyAttemptEvents tbl (chatEndpoint task message chatGen).1 =
        createAttemptSQL tbl (chatAttemptData task message response)) ∧
    ((chatEndpoint task message chatGen).2 = .badRequest ∨
     (∃ e, (chatEndpoint task message chatGen).2 = .serverError e) →
      applyAttemptEvents tbl (chatEndpoint task message chatGen).1 = tbl) := by
  by_cases hm : message = ""
  · simp [chatEndpoint, hm, applyTaskEvents, applyAttemptEvents, execCallsOf,
      genPromptsOf, updateEventsOf]
  · rcases hg : chatGen
      { prompt := task.prompt
        websiteUrl := task.websiteUrlProp
        attempts := task.attemptsProp.getD 0
        lastError := jsOr task.resultProp "Unknown error"
        lastCode := jsOr task.resultProp "" } with e | resp
    · simp [chatEndpoint, hm, hg, applyTaskEvents, applyAttemptEvents,
        execCallsOf, genPromptsOf, updateEventsOf]
    · simp only [chatEndpoint, hm, hg, if_neg hm]
      refine ⟨rfl, rfl, rfl, rfl, ?_, ?_⟩
      · intro response hr
        injection hr with h
        subst h
        rfl
      · intro hr
        rcases hr with hr | ⟨e, hr⟩ <;> simp at hr

/-- Counterexample to C8 as stated: a successful chat reply mutates the
attempts table of the task (it upserts a chat_interaction record at
attempt number 1, here overwriting the existing attempt-1 row). -/
theorem c8_counterexample :
    (chatEndpoint c6Task "hi" (fun _ => .ok "advice")).2 = .reply "advice" ∧
    applyAttemptEvents c5Tbl (chatEndpoint c6Task "hi" (fun _ => .ok "advice")).1 ≠ c5Tbl :=
  ⟨rfl, by decide⟩

/-- Witness for C8 (amended) at a concrete chat interaction. -/
theorem c8_chat_frame_witness :
    applyTaskEvents c6Task (chatEndpoint c6Task "hi" (fun _ => .ok "advice")).1 = c6Task ∧
    execCallsOf (chatEndpoint c6Task "hi" (fun _ => .ok "advice")).1 = [] ∧
    genPromptsOf (chatEndpoint c6Task "hi" (fun _ => .ok "advice")).1 = [] ∧
    updateEventsOf (chatEndpoint c6Task "hi" (fun _ => .ok "advice")).1 = [] ∧
    (∀ response, (chatEndpoint c6Task "hi" (fun _ => .ok "advice")).2 = .reply response →
      applyAttemptEvents c5Tbl (chatEndpoint c6Task "hi" (fun _ => .ok "advice")).1 =
        createAttemptSQL c5Tbl (chatAttemptData c6Task "hi" response)) ∧
    ((chatEndpoint c6Task "hi" (fun _ => .ok "advice")).2 = .badRequest ∨
     (∃ e, (chatEndpoint c6Task "hi" (fun _ => .ok "advice")).2 = .serverError e) →
      applyAttemptEvents c5Tbl (chatEndpoint c6Task "hi" (fun _ => .ok "advice")).1 = c5Tbl) :=
  c8_chat_frame c6Task c6Task c5Tbl "hi" (fun _ => .ok "advice")

/-- Job identifiers of the map, in insertion order. -/
def idsOf (jobs : List QJob) : List Nat := jobs.map (fun j => j.jobId)

lemma setStatus_cons (a : QJob) (t : List QJob) (id : Nat) (st : JobStatus) :
    setStatus (a :: t) id st =
      (if a.jobId == id then { a with status := st } else a) :: setStatus t id st := rfl

lemma idsOf_setStatus (jobs : List QJob) (id : Nat) (st : JobStatus) :
    idsOf (setStatus jobs id st) = idsOf jobs := by
  induction jobs with
  | nil => rfl
  | cons a t ih =>
      rw [setStatus_cons]
      unfold idsOf at ih ⊢
      simp only [List.map_cons, ih]
      congr 1
      split_ifs <;> rfl

lemma setStatus_of_forall_ne (l : List QJob) (id : Nat) (st : JobStatus)
    (h : ∀ x ∈ l, x.jobId ≠ id) : setStatus l id st = l := by
  induction l with
  | nil => rfl
  | cons a t ih =>
      rw [setStatus_cons,
        if_neg (by simp only [beq_iff_eq]; exact h a (List.mem_cons_self a t)),
        ih (fun x hx => h x (List.mem_cons_of_mem a hx))]

lemma nodup_head_ne (a : QJob) (t : List QJob) (hnd : (idsOf (a :: t)).Nodup) :
    ∀ x ∈ t, x.jobId ≠ a.jobId := by
  have hcons : idsOf (a :: t) = a.jobId :: idsOf t := rfl
  rw [hcons] at hnd
  have h2 : a.jobId ∉ idsOf t := (List.nodup_cons.mp hnd).1
  intro x hx he
  exact h2 (he ▸ List.mem_map_of_mem (fun j => j.jobId) hx)

lemma nodup_idsOf_tail (a : QJob) (t : List QJob) (hnd : (idsOf (a :: t)).Nodup) :
    (idsOf t).Nodup := by
  have hcons : idsOf (a :: t) = a.jobId :: idsOf t := rfl
  rw [hcons] at hnd
  exact (List.nodup_cons.mp hnd).2

lemma countP_set_processing (l : List QJob) (j : QJob)
    (hnd : (idsOf l).Nodup) (hj : j ∈ l) (hp : j.status = JobStatus.pending) :
    (setStatus l j.jobId JobStatus.processing).countP
        (fun x => x.status == JobStatus.processing) =
      l.countP (fun x => x.status == JobStatus.processing) + 1 := by
  induction l with
  | nil => cases hj
  | cons a t ih =>
      rcases List.mem_cons.mp hj with rfl | hjt
      · rw [setStatus_cons, if_pos (by simp),
          setStatus_of_forall_ne t j.jobId _ (nodup_head_ne j t hnd),
          List.countP_cons, List.countP_cons]
        simp [hp]
      · have hne := nodup_head_ne a t hnd j hjt
        rw [setStatus_cons,
          if_neg (by simp only [beq_iff_eq]; exact fun h => hne h.symm),
          List.countP_cons, List.countP_cons, ih (nodup_idsOf_tail a t hnd) hjt]
        omega

lemma countP_set_done (l : List QJob) (j : QJob) (st : JobStatus)
    (hnd : (idsOf l).Nodup) (hj : j ∈ l) (hp : j.status = JobStatus.processing)
    (hns : st ≠ JobStatus.processing) :
    (setStatus l j.jobId st).countP (fun x => x.status == JobStatus.processing) + 1 =
      l.countP (fun x => x.status == JobStatus.processing) := by
  induction l with
  | nil => cases hj
  | cons a t ih =>
      rcases List.mem_cons.mp hj with rfl | hjt
      · rw [setStatus_cons, if_pos (by simp),
          setStatus_of_forall_ne t j.jobId _ (nodup_head_ne j t hnd),
          List.countP_cons, List.countP_cons]
        have hstne : (st == JobStatus.processing) = false :=
          beq_eq_false_iff_ne.mpr hns
        simp [hp, hstne]
      · have hne := nodup_head_ne a t hnd j hjt
        rw [setStatus_cons,
          if_neg (by simp only [beq_iff_eq]; exact fun h => hne h.symm),
          List.countP_cons, List.countP_cons]
        have := ih (nodup_idsOf_tail a t hnd) hjt
        omega

lemma processingCount_eq_countP (s : QueueState) :
    processingCount s = s.jobs.countP (fun j => j.status == JobStatus.processing) :=
  (List.countP_eq_length_filter _ _).symm

/-- Safety invariant of the queue: distinct job identifiers, the
currentlyProcessing counter equals the number of jobs in status
processing, and the counter never exceeds maxConcurrent. -/
def QInv (s : QueueState) : Prop :=
  (idsOf s.jobs).Nodup ∧
  processingCount s = s.currentlyProcessing ∧
  s.currentlyProcessing ≤ maxConcurrent

lemma qinv_preserved (s t : QueueState) (hs : QInv s) (hstep : QStep s t) : QInv t := by
  obtain ⟨hnd, hcount, hle⟩ := hs
  cases hstep with
  | add id hfresh =>
      refine ⟨?_, ?_, hle⟩
      · unfold idsOf
        rw [List.map_append]
        apply List.Nodup.append hnd (by simp)
        intro x hx hy
        simp only [List.map_cons, List.map_nil, List.mem_singleton] at hy
        obtain ⟨jx, hjx, hjid⟩ := List.mem_map.mp hx
        rw [hy] at hjid
        exact hfresh jx hjx hjid
      · rw [processingCount_eq_countP] at hcount ⊢
        simp only [List.countP_append]
        rw [hcount]
        simp [List.countP_cons]
  | internal t2 histep =>
      cases histep with
      | loopPick j hflag hcp hfind =>
          have hj : j ∈ s.jobs := List.mem_of_find?_eq_some hfind
          have hpend : j.status = JobStatus.pending := by
            have := List.find?_some hfind
            simpa using this
          refine ⟨?_, ?_, ?_⟩
          · simpa [idsOf_setStatus] using hnd
          · rw [processingCount_eq_countP] at hcount ⊢
            simp only at hcount ⊢
            rw [countP_set_processing s.jobs j hnd hj hpend, hcount]
          · simp only
            unfold maxConcurrent at *
            omega
      | loopStop hflag hcond =>
          exact ⟨hnd, hcount, hle⟩
      | finish j ok hj hp =>
          refine ⟨?_, ?_, ?_⟩
          · simpa [idsOf_setStatus] using hnd
          · rw [processingCount_eq_countP] at hcount ⊢
            simp only at hcount ⊢
            have hd := countP_set_done s.jobs j
              (if ok then JobStatus.completedJob else JobStatus.failedJob)
              hnd hj hp (by cases ok <;> simp)
            omega
          · simp only
            omega

/-- C9 (amended): in every reachable queue state at most maxConcurrent
= 2 jobs are in status processing — the counter equals the number of
processing jobs and never exceeds 2. (The drain loop picks the first
pending job in insertion order by construction of loopPick; but
liveness fails, see the counterexample: freeing a slot does not resume
draining, so a pending job may never start.) -/
theorem c9_bounded_concurrency (s : QueueState) (h : QReachable initialQueue s) :
    processingCount s = s.currentlyProcessing ∧
    s.currentlyProcessing ≤ maxConcurrent := by
  have hinv : QInv s := by
    induction h with
    | refl => exact ⟨List.nodup_nil, rfl, by decide⟩
    | tail hreach hstep ih => exact qinv_preserved _ _ ih hstep
  exact ⟨hinv.2.1, hinv.2.2⟩

/-- Witness for C9 (amended): the invariant at the initial state. -/
theorem c9_bounded_concurrency_witness :
    QReachable initialQueue initialQueue ∧
    (processingCount initialQueue = initialQueue.currentlyProcessing ∧
     initialQueue.currentlyProcessing ≤ maxConcurrent) :=
  ⟨Relation.ReflTransGen.refl,
   c9_bounded_concurrency initialQueue Relation.ReflTransGen.refl⟩

/-- States of the starvation trace: five jobs are submitted while the
drain loop is running; the loop picks jobs 1 and 2, observes the
counter at maxConcurrent and exits (clearing the flag); jobs 1 and 2
then finish. -/
def q1 : QueueState :=
  { jobs := [⟨1, .pending⟩], currentlyProcessing := 0, processingFlag := true }

def q2 : QueueState :=
  { jobs := [⟨1, .processing⟩], currentlyProcessing := 1, processingFlag := true }

def q3 : QueueState :=
  { jobs := [⟨1, .processing⟩, ⟨2, .pending⟩]
    currentlyProcessing := 1, processingFlag := true }

def q4 : QueueState :=
  { jobs := [⟨1, .processing⟩, ⟨2, .pending⟩, ⟨3, .pending⟩]
    currentlyProcessing := 1, processingFlag := true }

def q5 : QueueState :=
  { jobs := [⟨1, .processing⟩, ⟨2, .pending⟩, ⟨3, .pending⟩, ⟨4, .pending⟩]
    currentlyProcessing := 1, processingFlag := true }

def q6 : QueueState :=
  { jobs := [⟨1, .processing⟩, ⟨2, .pending⟩, ⟨3, .pending⟩, ⟨4, .pending⟩, ⟨5, .pending⟩]
    currentlyProcessing := 1, processingFlag := true }

def q7 : QueueState :=
  { jobs := [⟨1, .processing⟩, ⟨2, .processing⟩, ⟨3, .pending⟩, ⟨4, .pending⟩, ⟨5, .pending⟩]
    currentlyProcessing := 2, processingFlag := true }

def q8 : QueueState :=
  { jobs := [⟨1, .processing⟩, ⟨2, .processing⟩, ⟨3, .pending⟩, ⟨4, .pending⟩, ⟨5, .pending⟩]
    currentlyProcessing := 2, processingFlag := false }

def q9 : QueueState :=
  { jobs := [⟨1, .completedJob⟩, ⟨2, .processing⟩, ⟨3, .pending⟩, ⟨4, .pending⟩, ⟨5, .pending⟩]
    currentlyProcessing := 1, processingFlag := false }

def qsFinal : QueueState :=
  { jobs := [⟨1, .completedJob⟩, ⟨2, .completedJob⟩, ⟨3, .pending⟩, ⟨4, .pending⟩, ⟨5, .pending⟩]
    currentlyProcessing := 0, processingFlag := false }

/-- Counterexample to the liveness part of C9: a reachable state in
which three submitted jobs are still pending while no internal
transition (drain-loop iteration, loop exit, or job completion) is
enabled — the drain loop has exited and only a new external submission
would restart it, so the pending jobs never reach a terminal state. -/
theorem c9_counterexample :
    QReachable initialQueue qsFinal ∧
    (∃ j ∈ qsFinal.jobs, j.status = JobStatus.pending) ∧
    ∀ u, ¬ InternalStep qsFinal u := by
  refine ⟨?_, ?_, ?_⟩
  · have h01 : QStep initialQueue q1 := QStep.add initialQueue 1 (by decide)
    have h12 : QStep q1 q2 :=
      QStep.internal q1 q2 (InternalStep.loopPick q1 ⟨1, .pending⟩ rfl (by decide) rfl)
    have h23 : QStep q2 q3 := QStep.add q2 2 (by decide)
    have h34 : QStep q3 q4 := QStep.add q3 3 (by decide)
    have h45 : QStep q4 q5 := QStep.add q4 4 (by decide)
    have h56 : QStep q5 q6 := QStep.add q5 5 (by decide)
    have h67 : QStep q6 q7 :=
      QStep.internal q6 q7 (InternalStep.loopPick q6 ⟨2, .pending⟩ rfl (by decide) rfl)
    have h78 : QStep q7 q8 :=
      QStep.internal q7 q8 (InternalStep.loopStop q7 rfl (Or.inl (by decide)))
    have h89 : QStep q8 q9 :=
      QStep.internal q8 q9 (InternalStep.finish q8 ⟨1, .processing⟩ true (by decide) rfl)
    have h9F : QStep q9 qsFinal :=
      QStep.internal q9 qsFinal (InternalStep.finish q9 ⟨2, .processing⟩ true (by decide) rfl)
    exact Relation.ReflTransGen.tail
      (Relation.ReflTransGen.tail
        (Relation.ReflTransGen.tail
          (Relation.ReflTransGen.tail
            (Relation.ReflTransGen.tail
              (Relation.ReflTransGen.tail
                (Relation.ReflTransGen.tail
                  (Relation.ReflTransGen.tail
                    (Relation.ReflTransGen.tail
                      (Relation.ReflTransGen.single h01) h12) h23) h34) h45)
                h56) h67) h78) h89) h9F
  · exact ⟨⟨3, .pending⟩, by decide, rfl⟩
  · intro u h
    cases h with
    | loopPick j hflag hcp hfind => exact absurd hflag (by decide)
    | loopStop hflag hcond => exact absurd hflag (by decide)
    | finish j ok hj hp =>
        have hnp : ∀ x ∈ qsFinal.jobs, x.status ≠ JobStatus.processing := by decide
        exact hnp j hj hp

end AIAutomation
